import Mathlib

/-!
# Verification of the tui-map core against its specification

Shallow embedding of the tui-map repository (src/hash.rs, src/geo.rs,
src/map/spatial.rs, src/map/renderer.rs, src/map/projection.rs,
src/map/globe.rs, src/app.rs).

Modelling conventions, applied uniformly:

* Rust `u64` arithmetic is modelled on `ℕ` with an explicit `% 2^64`
  wherever the source wraps (`wrapping_mul`, `wrapping_add`, shifts).
  `u8`/`u16` saturating subtraction is `Nat` subtraction (which is
  truncated, exactly matching `saturating_sub`).
* Rust `f64` values are modelled as exact rationals (`ℚ`) in code that only
  performs field operations, comparisons and floors (the spatial grids),
  and as real numbers (`ℝ`) in code that applies transcendental functions
  (sin, cos, tan, ln, sinh, atan, sqrt).  IEEE rounding is elided: the
  embedding computes with exact field arithmetic, and the constants
  (`PI`, `TAU`, decimal literals) are taken at their mathematical values.
  No theorem below depends on a quantity closer to a branch point or an
  integer boundary than the elided rounding error.
* `x as usize` / `x as u64` on an `f64` truncates toward zero and
  saturates below at 0; for the nonnegative-or-saturating uses in this
  code it is `(Int.floor x).toNat` (`natCast` below).
* `x as i32` truncates toward zero and saturates at the `i32` range
  (`i32cast` below).
* `f64::to_bits` (used only to seed the fire-spread hash) is IEEE bit
  extraction and is kept as an uninterpreted parameter `toBits : ℝ → ℕ`;
  every theorem about the simulation holds for every valuation of it.
* `MapRenderer::is_on_land` depends on loaded polygon data; it is kept as
  a parameter `landCheck : ℝ → ℝ → Bool`.  The code returns `true` for
  every point when no land data is loaded, which instantiates
  `landCheck := fun _ _ => true`.
-/

namespace TuiMap

/-! ## u64 primitives and src/hash.rs -/

/-- The modulus of Rust `u64` arithmetic. -/
def U64 : ℕ := 2 ^ 64

/-- `u64::wrapping_mul`. -/
def wmul (a b : ℕ) : ℕ := a * b % U64

/-- `u64::wrapping_add`. -/
def wadd (a b : ℕ) : ℕ := (a + b) % U64

/-- `u64` left shift (wrapping, as in Rust `<<` on a value already reduced). -/
def shl (a k : ℕ) : ℕ := a * 2 ^ k % U64

/-- `u64` right shift. -/
def shr (a k : ℕ) : ℕ := a / 2 ^ k

/-- src/hash.rs `hash3`: 3-value xorshift hash. -/
def hash3 (a b c : ℕ) : ℕ :=
  let s0 := wadd (wadd (wmul a 2654435761) (wmul b 2246822519)) c
  let s1 := s0 ^^^ shl s0 13
  let s2 := s1 ^^^ shr s1 7
  s2 ^^^ shl s2 17

/-- The 53 random bits of src/hash.rs `rand_simple` (splitmix64 finalizer). -/
def randBits (seed : ℕ) : ℕ :=
  let x0 := wmul seed 0x9e3779b97f4a7c15
  let x1 := x0 ^^^ shr x0 30
  let x2 := wmul x1 0xbf58476d1ce4e5b9
  let x3 := x2 ^^^ shr x2 27
  let x4 := wmul x3 0x94d049bb133111eb
  let x5 := x4 ^^^ shr x4 31
  shr x5 11

/-- src/hash.rs `rand_simple`: `(x >> 11) as f64 / 9007199254740992.0`.
The numerator is below `2^53`, so the `f64` division is exact and the
result is exactly this rational. -/
def randSimple (seed : ℕ) : ℚ := (randBits seed : ℚ) / 9007199254740992

/-- `rand_simple` is nonnegative. -/
theorem randSimple_nonneg (seed : ℕ) : 0 ≤ randSimple seed := by
  unfold randSimple
  positivity

/-- The random bits fit in 53 bits. -/
theorem randBits_lt (seed : ℕ) : randBits seed < 2 ^ 53 := by
  unfold randBits shr
  refine Nat.div_lt_of_lt_mul ?_
  have hx : ∀ a b : ℕ, a ^^^ shr b 31 < U64 → True := fun _ _ _ => trivial
  have h64 : ∀ a b : ℕ, wmul a b < U64 := fun a b => Nat.mod_lt _ (by norm_num [U64])
  have hxor : ∀ a b : ℕ, a < U64 → b < U64 → (a ^^^ b) < U64 := by
    intro a b ha hb
    have := Nat.xor_lt_two_pow (n := 64) (by simpa [U64] using ha) (by simpa [U64] using hb)
    simpa [U64] using this
  have hshr : ∀ a k : ℕ, a < U64 → shr a k < U64 :=
    fun a k ha => lt_of_le_of_lt (Nat.div_le_self a _) ha
  have h1 : wmul seed 0x9e3779b97f4a7c15 < U64 := h64 _ _
  have h2 : (wmul seed 0x9e3779b97f4a7c15 ^^^ shr (wmul seed 0x9e3779b97f4a7c15) 30) < U64 :=
    hxor _ _ h1 (hshr _ _ h1)
  have h3 : wmul (wmul seed 0x9e3779b97f4a7c15 ^^^ shr (wmul seed 0x9e3779b97f4a7c15) 30)
      0xbf58476d1ce4e5b9 < U64 := h64 _ _
  set x2 := wmul (wmul seed 0x9e3779b97f4a7c15 ^^^ shr (wmul seed 0x9e3779b97f4a7c15) 30)
      0xbf58476d1ce4e5b9 with hx2
  have h4 : (x2 ^^^ shr x2 27) < U64 := hxor _ _ h3 (hshr _ _ h3)
  have h5 : wmul (x2 ^^^ shr x2 27) 0x94d049bb133111eb < U64 := h64 _ _
  set x4 := wmul (x2 ^^^ shr x2 27) 0x94d049bb133111eb with hx4
  have h6 : (x4 ^^^ shr x4 31) < U64 := hxor _ _ h5 (hshr _ _ h5)
  calc x4 ^^^ shr x4 31 < U64 := h6
    _ = 2 ^ 53 * 2 ^ 11 := by norm_num [U64]

/-- `rand_simple` is strictly below 1. -/
theorem randSimple_lt_one (seed : ℕ) : randSimple seed < 1 := by
  unfold randSimple
  rw [div_lt_one (by norm_num)]
  exact_mod_cast randBits_lt seed

/-! ## src/map/spatial.rs: cell mapping and `FeatureGrid`

The feature grid performs only field operations, comparisons and floors on
`f64` coordinates, so it is embedded over `ℚ` and stays executable. -/

/-- src/map/spatial.rs `to_cell`: `((lon / cell_size).floor() as i32,
(lat / cell_size).floor() as i32)`. -/
def toCell (lon lat cellSize : ℚ) : ℤ × ℤ :=
  (⌊lon / cellSize⌋, ⌊lat / cellSize⌋)

/-- src/map/spatial.rs `FeatureGrid`.  The backing `Vec<Vec<usize>>` of
length `lon_cells * lat_cells` is modelled by its contents function
`cells : ℕ → List ℕ`; every access in the source goes through
`cell_index`, whose bound check keeps indices below `lon_cells * lat_cells`. -/
structure FeatureGrid where
  cells : ℕ → List ℕ
  cellSize : ℚ
  lonCells : ℕ
  latCells : ℕ

namespace FeatureGrid

/-- `FeatureGrid::new`: `lon_cells = (360/cell_size).ceil() as usize`,
`lat_cells = (180/cell_size).ceil() as usize`, all cells empty. -/
def new (cellSize : ℚ) : FeatureGrid :=
  { cells := fun _ => []
    cellSize := cellSize
    lonCells := (⌈(360 : ℚ) / cellSize⌉).toNat
    latCells := (⌈(180 : ℚ) / cellSize⌉).toNat }

/-- `FeatureGrid::cell_index`: offset so that -180° maps to 0 and -90° maps
to 0, with a bound check returning `None` out of range. -/
def cellIndex (g : FeatureGrid) (lonCell latCell : ℤ) : Option ℕ :=
  let x := lonCell + (g.lonCells : ℤ) / 2
  let y := latCell + (g.latCells : ℤ) / 2
  if 0 ≤ x ∧ x < (g.lonCells : ℤ) ∧ 0 ≤ y ∧ y < (g.latCells : ℤ) then
    some (y.toNat * g.lonCells + x.toNat)
  else
    none

/-- `grid.cells[ci].push(idx)`. -/
def pushAt (g : FeatureGrid) (ci idx : ℕ) : FeatureGrid :=
  { g with cells := fun j => if j = ci then g.cells j ++ [idx] else g.cells j }

/-- The inclusive integer range `a..=b` as a list. -/
def intRange (a b : ℤ) : List ℤ :=
  (List.range (b + 1 - a).toNat).map (fun k => a + (k : ℤ))

/-- The inner loops of `FeatureGrid::build` for one feature: insert `idx`
into every in-bounds cell its bbox `(min_lon, min_lat, max_lon, max_lat)`
overlaps. -/
def insertBBox (g : FeatureGrid) (idx : ℕ) (bb : ℚ × ℚ × ℚ × ℚ) : FeatureGrid :=
  let minCell := toCell bb.1 bb.2.1 g.cellSize
  let maxCell := toCell bb.2.2.1 bb.2.2.2 g.cellSize
  (intRange minCell.2 maxCell.2).foldl (fun g1 y =>
    (intRange minCell.1 maxCell.1).foldl (fun g2 x =>
      match g2.cellIndex x y with
      | some ci => g2.pushAt ci idx
      | none => g2) g1) g

/-- `FeatureGrid::build`: enumerate the bbox batch and insert each feature. -/
def build (bboxes : List (ℚ × ℚ × ℚ × ℚ)) (cellSize : ℚ) : FeatureGrid :=
  (bboxes.enum).foldl (fun g p => g.insertBBox p.1 p.2) (new cellSize)

/-- `FeatureGrid::query_into`: append the indices of every cell the query
bounds overlap onto `results` (duplicates allowed, caller dedups). -/
def queryInto (g : FeatureGrid) (minLon minLat maxLon maxLat : ℚ)
    (results : List ℕ) : List ℕ :=
  let minCell := toCell minLon minLat g.cellSize
  let maxCell := toCell maxLon maxLat g.cellSize
  (intRange minCell.2 maxCell.2).foldl (fun acc y =>
    (intRange minCell.1 maxCell.1).foldl (fun acc2 x =>
      match g.cellIndex x y with
      | some ci => if (g.cells ci).isEmpty then acc2 else acc2 ++ g.cells ci
      | none => acc2) acc) results

end FeatureGrid

/-- Axis-aligned boxes `(min_lon, min_lat, max_lon, max_lat)` intersect. -/
def bboxIntersects (a b : ℚ × ℚ × ℚ × ℚ) : Prop :=
  a.1 ≤ b.2.2.1 ∧ b.1 ≤ a.2.2.1 ∧ a.2.1 ≤ b.2.2.2 ∧ b.2.1 ≤ a.2.2.2

instance (a b : ℚ × ℚ × ℚ × ℚ) : Decidable (bboxIntersects a b) := by
  unfold bboxIntersects
  infer_instance

/-! ### C8: the feature grid drops features touching the domain boundary -/

theorem floor_neg_one_div_five : ⌊(-1 : ℚ) / 5⌋ = -1 := by
  rw [Int.floor_eq_iff]; norm_num

theorem floor_89_div_five : ⌊(89 : ℚ) / 5⌋ = 17 := by
  rw [Int.floor_eq_iff]; norm_num

theorem floor_one_div_five : ⌊(1 : ℚ) / 5⌋ = 0 := by
  rw [Int.floor_eq_iff]; norm_num

theorem floor_91_div_five : ⌊(91 : ℚ) / 5⌋ = 18 := by
  rw [Int.floor_eq_iff]; norm_num

theorem floor_zero_div_five : ⌊(0 : ℚ) / 5⌋ = 0 := by
  rw [Int.floor_eq_iff]; norm_num

theorem floor_90_div_five : ⌊(90 : ℚ) / 5⌋ = 18 := by
  rw [Int.floor_eq_iff]; norm_num

theorem lonCells_five : (FeatureGrid.new 5).lonCells = 72 := by
  show (⌈(360 : ℚ) / 5⌉).toNat = 72
  rw [show ⌈(360 : ℚ) / 5⌉ = 72 by rw [Int.ceil_eq_iff]; norm_num]
  rfl

theorem latCells_five : (FeatureGrid.new 5).latCells = 36 := by
  show (⌈(180 : ℚ) / 5⌉).toNat = 36
  rw [show ⌈(180 : ℚ) / 5⌉ = 36 by rw [Int.ceil_eq_iff]; norm_num]
  rfl

/-- A query on an all-empty grid returns the accumulator unchanged. -/
theorem queryInto_new (cs a b c d : ℚ) (res : List ℕ) :
    (FeatureGrid.new cs).queryInto a b c d res = res := by
  unfold FeatureGrid.queryInto
  have hinner : ∀ (l : List ℤ) (acc : List ℕ) (y : ℤ),
      l.foldl (fun acc2 x =>
        match (FeatureGrid.new cs).cellIndex x y with
        | some ci => if ((FeatureGrid.new cs).cells ci).isEmpty then acc2
                     else acc2 ++ (FeatureGrid.new cs).cells ci
        | none => acc2) acc = acc := by
    intro l
    induction l with
    | nil => intro acc y; rfl
    | cons x xs ih =>
      intro acc y
      rw [List.foldl_cons, ih]
      cases (FeatureGrid.new cs).cellIndex x y <;> simp [FeatureGrid.new]
  have houter : ∀ (l : List ℤ) (acc : List ℕ),
      l.foldl (fun acc y =>
        (FeatureGrid.intRange (toCell a b cs).1 (toCell c d cs).1).foldl (fun acc2 x =>
          match (FeatureGrid.new cs).cellIndex x y with
          | some ci => if ((FeatureGrid.new cs).cells ci).isEmpty then acc2
                       else acc2 ++ (FeatureGrid.new cs).cells ci
          | none => acc2) acc) acc = acc := by
    intro l
    induction l with
    | nil => intro acc; rfl
    | cons y ys ih =>
      intro acc
      rw [List.foldl_cons, hinner, ih]
  exact houter _ _

/-- Inserting the north-pole point bbox `(0°, 90°)` into a 5° feature grid
is a no-op: its only cell `(0, 18)` maps past the top row and `cell_index`
returns `None`. -/
theorem intRange_self (a : ℤ) : FeatureGrid.intRange a a = [a] := by
  unfold FeatureGrid.intRange
  have h : (a + 1 - a).toNat = 1 := by omega
  rw [h]
  simp [List.range_succ]

theorem insertBBox_pole :
    (FeatureGrid.new 5).insertBBox 0 ((0 : ℚ), 90, 0, 90) = FeatureGrid.new 5 := by
  have hnone : (FeatureGrid.new 5).cellIndex 0 18 = none := by
    unfold FeatureGrid.cellIndex
    rw [lonCells_five, latCells_five]
    norm_num
  have hcs : (FeatureGrid.new 5).cellSize = 5 := rfl
  unfold FeatureGrid.insertBBox toCell
  simp only [hcs, floor_zero_div_five, floor_90_div_five, intRange_self,
    List.foldl_cons, List.foldl_nil, hnone]

/-- **C8** (code_bug evaluation): a feature whose bounding box is the single
point (0°E, 90°N) — inside the claimed `[-180,180] × [-90,90]` domain — is
indexed into no cell by `FeatureGrid::build`, and `query_into` for the
rectangle `[-1,1] × [89,91]`, which intersects that bbox, returns no
candidates: a false negative, contradicting the code's own guarantee that
conservative queries never omit a true hit. -/
theorem c8_boundary_false_negative :
    bboxIntersects ((0 : ℚ), 90, 0, 90) ((-1 : ℚ), 89, 1, 91) ∧
    FeatureGrid.queryInto (FeatureGrid.build [((0 : ℚ), 90, 0, 90)] 5)
      (-1) 89 1 91 [] = [] := by
  constructor
  · exact ⟨by norm_num, by norm_num, by norm_num, by norm_num⟩
  · have hbuild : FeatureGrid.build [((0 : ℚ), 90, 0, 90)] 5 = FeatureGrid.new 5 := by
      unfold FeatureGrid.build
      simp only [List.enum, List.enumFrom, List.foldl_cons, List.foldl_nil]
      exact insertBBox_pole
    rw [hbuild, queryInto_new]

/-! ## src/geo.rs normalization and src/map/renderer.rs `LandGrid`

The land grid performs only field operations, comparisons and floors, so
it is embedded over `ℚ` and stays executable.  The `f64` literal `179.999`
is taken at its decimal value; it functions only as a sub-180 clamp and no
theorem depends on its last bits. -/

/-- src/geo.rs `normalize_lon`: `(lon + 180.0).rem_euclid(360.0)`, landing
in `[0, 360)`. -/
def normalizeLon (lon : ℚ) : ℚ := lon + 180 - 360 * ⌊(lon + 180) / 360⌋

/-- src/geo.rs `normalize_lat`: `(lat + 90.0).clamp(0.0, 179.999)`. -/
def normalizeLat (lat : ℚ) : ℚ := min (max (lat + 90) 0) (179999 / 1000)

/-- Rust `x as usize` on an `f64`: truncation toward zero, saturating at 0
below (all uses here are on nonnegative values). -/
def asUsize (q : ℚ) : ℕ := (⌊q⌋).toNat

theorem normalizeLon_nonneg (lon : ℚ) : 0 ≤ normalizeLon lon := by
  have h := Int.fract_nonneg ((lon + 180) / 360)
  unfold normalizeLon
  unfold Int.fract at h
  nlinarith

theorem normalizeLon_lt (lon : ℚ) : normalizeLon lon < 360 := by
  have h := Int.fract_lt_one ((lon + 180) / 360)
  unfold normalizeLon
  unfold Int.fract at h
  nlinarith

theorem normalizeLat_nonneg (lat : ℚ) : 0 ≤ normalizeLat lat := by
  unfold normalizeLat
  positivity

theorem normalizeLat_lt (lat : ℚ) : normalizeLat lat < 180 := by
  unfold normalizeLat
  have : (179999 / 1000 : ℚ) < 180 := by norm_num
  exact lt_of_le_of_lt (min_le_right _ _) this

/-- src/map/renderer.rs `LandGrid::WIDTH`. -/
def LG_WIDTH : ℕ := 3600

/-- src/map/renderer.rs `LandGrid::HEIGHT`. -/
def LG_HEIGHT : ℕ := 1800

/-- src/map/renderer.rs `LandGrid::TOTAL_BITS`. -/
def LG_TOTAL : ℕ := LG_WIDTH * LG_HEIGHT

/-- src/map/renderer.rs `LandGrid`: the fine 0.1° bitmap as its `Vec<u64>`
words, the coarse 1° tier as its `Vec<u8>` cells (0 = all water,
1 = mixed, 2 = all land).  The vectors are allocated at fixed size
(`BITMAP_LEN`, `360*180`); indexing is modelled with `getD`, and every
index the code produces is proven in range below. -/
structure LandGrid where
  bitmap : List ℕ
  coarse : List ℕ

/-- `LandGrid::get_bit`: `(bitmap[idx/64] >> (idx%64)) & 1 == 1`, with the
source's `idx < TOTAL_BITS` guard returning `false` out of range. -/
def getBit (bitmap : List ℕ) (idx : ℕ) : Bool :=
  if idx < LG_TOTAL then (bitmap.getD (idx / 64) 0).testBit (idx % 64) else false

/-- The 10×10 fine sub-cells of one coarse cell, in the iteration order of
`build_coarse` (`flat_map` over rows, `map` over columns). -/
def subCells : List (ℕ × ℕ) :=
  (List.range 10).flatMap (fun fl => (List.range 10).map (fun fc => (fl, fc)))

/-- `build_coarse` for one coarse cell: how many of its 100 fine sub-cells
are land. -/
def landCount (bitmap : List ℕ) (clat clon : ℕ) : ℕ :=
  (subCells.filter (fun p =>
    getBit bitmap ((clat * 10 + p.1) * LG_WIDTH + (clon * 10 + p.2)))).length

/-- The classification `match` of `build_coarse`: 0 land sub-cells ⇒ all
water (0), 100 ⇒ all land (2), else mixed (1). -/
def coarseVal (bitmap : List ℕ) (clat clon : ℕ) : ℕ :=
  if landCount bitmap clat clon = 0 then 0
  else if landCount bitmap clat clon = 100 then 2
  else 1

/-- `LandGrid::build_coarse`: the coarse tier, row-major at
`coarse_lat * 360 + coarse_lon`. -/
def buildCoarse (bitmap : List ℕ) : List ℕ :=
  (List.range (180 * 360)).map (fun i => coarseVal bitmap (i / 360) (i % 360))

/-- `LandGrid::is_land`: phase 1 consults the coarse 1° tier and
short-circuits on all-water/all-land; only mixed cells fall through to the
fine 0.1° bit test. -/
def LandGrid.isLand (g : LandGrid) (lon lat : ℚ) : Bool :=
  let clon := asUsize (normalizeLon lon)
  let clat := asUsize (normalizeLat lat)
  let cidx := clat * 360 + min clon 359
  match g.coarse.getD cidx 0 with
  | 0 => false
  | 2 => true
  | _ =>
    let lonIdx := asUsize (normalizeLon lon / (1 / 10 : ℚ))
    let latIdx := asUsize (normalizeLat lat / (1 / 10 : ℚ))
    getBit g.bitmap (min latIdx (LG_HEIGHT - 1) * LG_WIDTH + min lonIdx (LG_WIDTH - 1))

/-- The fine-bitmap-only reference: the phase-2 bit test of `is_land`,
performed unconditionally. -/
def fineOnly (bitmap : List ℕ) (lon lat : ℚ) : Bool :=
  let lonIdx := asUsize (normalizeLon lon / (1 / 10 : ℚ))
  let latIdx := asUsize (normalizeLat lat / (1 / 10 : ℚ))
  getBit bitmap (min latIdx (LG_HEIGHT - 1) * LG_WIDTH + min lonIdx (LG_WIDTH - 1))

/-! ### C9: the coarse short-circuit never changes the answer -/

theorem div_tenth (q : ℚ) : q / (1 / 10 : ℚ) = q * 10 := by
  rw [one_div, div_inv_eq_mul]

/-- Truncating `10 q` splits as ten times the truncation of `q` plus a
sub-cell remainder below 10 (for nonnegative `q`). -/
theorem asUsize_ten_decomp (q : ℚ) (hq : 0 ≤ q) :
    ∃ r : ℕ, r < 10 ∧ asUsize (q * 10) = 10 * asUsize q + r := by
  have h1 : (⌊q⌋ : ℚ) ≤ q := Int.floor_le q
  have h2 : q < ⌊q⌋ + 1 := Int.lt_floor_add_one q
  have hfl0 : 0 ≤ ⌊q⌋ := Int.floor_nonneg.mpr hq
  have hlow : 10 * ⌊q⌋ ≤ ⌊q * 10⌋ := by
    apply Int.le_floor.mpr
    push_cast
    nlinarith
  have hhigh : ⌊q * 10⌋ < 10 * ⌊q⌋ + 10 := by
    apply Int.floor_lt.mpr
    push_cast
    nlinarith
  refine ⟨(⌊q * 10⌋ - 10 * ⌊q⌋).toNat, ?_, ?_⟩
  · omega
  · unfold asUsize
    omega

theorem mem_subCells (a b : ℕ) (ha : a < 10) (hb : b < 10) : (a, b) ∈ subCells := by
  unfold subCells
  simp only [List.mem_flatMap, List.mem_map, List.mem_range]
  exact ⟨a, ha, b, hb, rfl⟩

theorem getD_buildCoarse (bm : List ℕ) (clat clon : ℕ)
    (hlat : clat < 180) (hlon : clon < 360) :
    (buildCoarse bm).getD (clat * 360 + clon) 0 = coarseVal bm clat clon := by
  unfold buildCoarse
  have hidx : clat * 360 + clon < 180 * 360 := by omega
  rw [List.getD_eq_getElem?_getD, List.getElem?_map, List.getElem?_range hidx]
  have hdiv : (clat * 360 + clon) / 360 = clat := by omega
  have hmod : (clat * 360 + clon) % 360 = clon := by omega
  simp [hdiv, hmod]

/-- **C9**: for every `LandGrid` whose coarse tier is built from its fine
bitmap by `build_coarse` (as `from_polygons` does), and every finite
coordinate, `is_land` returns exactly what the fine bitmap alone says at
the normalized fine cell: the all-water/all-land short-circuit never
changes the query result. -/
theorem c9_coarse_tier_consistent (bm : List ℕ) (lon lat : ℚ) :
    (LandGrid.mk bm (buildCoarse bm)).isLand lon lat = fineOnly bm lon lat := by
  have hnlon0 := normalizeLon_nonneg lon
  have hnlon1 := normalizeLon_lt lon
  have hnlat0 := normalizeLat_nonneg lat
  have hnlat1 := normalizeLat_lt lat
  have hclon : asUsize (normalizeLon lon) ≤ 359 := by
    unfold asUsize
    have : ⌊normalizeLon lon⌋ < 360 := Int.floor_lt.mpr (by exact_mod_cast hnlon1)
    omega
  have hclat : asUsize (normalizeLat lat) ≤ 179 := by
    unfold asUsize
    have : ⌊normalizeLat lat⌋ < 180 := Int.floor_lt.mpr (by exact_mod_cast hnlat1)
    omega
  obtain ⟨rc, hrc, hlonten⟩ := asUsize_ten_decomp (normalizeLon lon) hnlon0
  obtain ⟨rl, hrl, hlatten⟩ := asUsize_ten_decomp (normalizeLat lat) hnlat0
  set clon := asUsize (normalizeLon lon) with hclon_def
  set clat := asUsize (normalizeLat lat) with hclat_def
  have hlonIdx : asUsize (normalizeLon lon / (1 / 10 : ℚ)) = 10 * clon + rc := by
    rw [div_tenth]; exact hlonten
  have hlatIdx : asUsize (normalizeLat lat / (1 / 10 : ℚ)) = 10 * clat + rl := by
    rw [div_tenth]; exact hlatten
  have hminlon : min (10 * clon + rc) (LG_WIDTH - 1) = 10 * clon + rc := by
    unfold LG_WIDTH; omega
  have hminlat : min (10 * clat + rl) (LG_HEIGHT - 1) = 10 * clat + rl := by
    unfold LG_HEIGHT; omega
  have hminclon : min clon 359 = clon := by omega
  have hidx : (10 * clat + rl) * LG_WIDTH + (10 * clon + rc)
      = (clat * 10 + rl) * LG_WIDTH + (clon * 10 + rc) := by ring
  have hfine : fineOnly bm lon lat
      = getBit bm ((clat * 10 + rl) * LG_WIDTH + (clon * 10 + rc)) := by
    simp only [fineOnly, hlonIdx, hlatIdx, hminlon, hminlat]
    rw [hidx]
  have hcoarse : (buildCoarse bm).getD (clat * 360 + min clon 359) 0
      = coarseVal bm clat clon := by
    rw [hminclon]
    exact getD_buildCoarse bm clat clon (by omega) (by omega)
  show (LandGrid.mk bm (buildCoarse bm)).isLand lon lat = fineOnly bm lon lat
  simp only [LandGrid.isLand]
  rw [hcoarse, hfine]
  by_cases h0 : landCount bm clat clon = 0
  · have hval : coarseVal bm clat clon = 0 := by simp [coarseVal, h0]
    rw [hval]
    have hnil : subCells.filter (fun p =>
        getBit bm ((clat * 10 + p.1) * LG_WIDTH + (clon * 10 + p.2))) = [] := by
      have h := h0
      unfold landCount at h
      exact List.eq_nil_of_length_eq_zero h
    have hall := List.filter_eq_nil_iff.mp hnil
    have hbit := hall (rl, rc) (mem_subCells rl rc hrl hrc)
    simp only [Bool.not_eq_true] at hbit
    show false = getBit bm ((clat * 10 + rl) * LG_WIDTH + (clon * 10 + rc))
    exact hbit.symm
  · by_cases h100 : landCount bm clat clon = 100
    · have hval : coarseVal bm clat clon = 2 := by simp [coarseVal, h0, h100]
      rw [hval]
      have hlen : (subCells.filter (fun p =>
          getBit bm ((clat * 10 + p.1) * LG_WIDTH + (clon * 10 + p.2)))).length
          = subCells.length := by
        unfold landCount at h100
        rw [h100]
        rfl
      have hall := List.filter_length_eq_length.mp hlen
      have hbit := hall (rl, rc) (mem_subCells rl rc hrl hrc)
      show true = getBit bm ((clat * 10 + rl) * LG_WIDTH + (clon * 10 + rc))
      exact hbit.symm
    · have hval : coarseVal bm clat clon = 1 := by simp [coarseVal, h0, h100]
      rw [hval]
      show getBit bm (min (asUsize (normalizeLat lat / (1 / 10 : ℚ))) (LG_HEIGHT - 1) * LG_WIDTH
          + min (asUsize (normalizeLon lon / (1 / 10 : ℚ))) (LG_WIDTH - 1))
          = getBit bm ((clat * 10 + rl) * LG_WIDTH + (clon * 10 + rc))
      rw [hlonIdx, hlatIdx, hminlon, hminlat, hidx]

/-! ## src/map/projection.rs `Viewport` (Web-Mercator)

Coordinate math uses `tan`, `cos`, `ln`, `sinh`, `atan`, so this part is
embedded over `ℝ` (the idealization of `f64` stated in the header). -/

open Real

noncomputable section

/-- Rust `x as i32`: truncate toward zero, saturating at the `i32` range. -/
def i32cast (x : ℝ) : ℤ :=
  max (-(2 ^ 31)) (min (2 ^ 31 - 1) (if 0 ≤ x then ⌊x⌋ else ⌈x⌉))

/-- src/map/projection.rs `Viewport`. -/
structure Viewport where
  center_lon : ℝ
  center_lat : ℝ
  zoom : ℝ
  width : ℕ
  height : ℕ

attribute [ext] Viewport

namespace Viewport

/-- `Viewport::world`: whole-world view, center (0°E, 20°N), zoom 1. -/
def world (width height : ℕ) : Viewport := ⟨0, 20, 1, width, height⟩

/-- The Web-Mercator normalized `y` of a latitude (degrees):
`(1 - ln(tan φ + 1/cos φ)/π)/2` with `φ = lat·π/180` — the expression the
source computes for both `center_y` and the projected point's `y`. -/
def mercY (lat : ℝ) : ℝ :=
  (1 - Real.log (Real.tan (lat * π / 180) + 1 / Real.cos (lat * π / 180)) / π) / 2

/-- `Viewport::unproject`.  The body is real-valued math; the source
passes it integer pixel coordinates. -/
def unproject (vp : Viewport) (px py : ℝ) : ℝ × ℝ :=
  let scale := vp.zoom * (vp.width : ℝ)
  let centerX := (vp.center_lon + 180) / 360
  let centerY := mercY vp.center_lat
  let x := (px - (vp.width : ℝ) / 2) / scale + centerX
  let y := (py - (vp.height : ℝ) / 2) / scale + centerY
  (x * 360 - 180, Real.arctan (Real.sinh (π * (1 - 2 * y))) * 180 / π)

/-- `Viewport::project` just before its final `as i32` casts. -/
def projectR (vp : Viewport) (lon lat : ℝ) : ℝ × ℝ :=
  let x := (lon + 180) / 360
  let y := mercY lat
  let centerX := (vp.center_lon + 180) / 360
  let centerY := mercY vp.center_lat
  let scale := vp.zoom * (vp.width : ℝ)
  ((x - centerX) * scale + (vp.width : ℝ) / 2,
    (y - centerY) * scale + (vp.height : ℝ) / 2)

/-- `Viewport::project`: integer pixels via `as i32`. -/
def project (vp : Viewport) (lon lat : ℝ) : ℤ × ℤ :=
  (i32cast (vp.projectR lon lat).1, i32cast (vp.projectR lon lat).2)

/-- `Viewport::is_visible`. -/
def isVisible (vp : Viewport) (px py : ℤ) : Prop :=
  -10 ≤ px ∧ px < (vp.width : ℤ) + 10 ∧ -10 ≤ py ∧ py < (vp.height : ℤ) + 10

/-- `Viewport::pan`: zoom-scaled shift, longitude wrap at ±180°, latitude
clamp to ±85°.  The body is real-valued; the source passes it integer
pixel deltas. -/
def pan (vp : Viewport) (dx dy : ℝ) : Viewport :=
  let scale := 360 / (vp.zoom * (vp.width : ℝ))
  let lon1 := vp.center_lon + dx * scale
  let lat1 := vp.center_lat - dy * scale * 0.5
  let lon2 := if lon1 > 180 then lon1 - 360 else if lon1 < -180 then lon1 + 360 else lon1
  { vp with center_lon := lon2, center_lat := min 85 (max (-85) lat1) }

/-- `Viewport::zoom_at` as written: capture the point under the cursor,
clamp the new zoom to `[0.5, 100]`, re-project (through the `as i32`
casts) and pan by the integer pixel offset. -/
def zoomAt (vp : Viewport) (px py : ℤ) (factor : ℝ) : Viewport :=
  let g := vp.unproject (px : ℝ) (py : ℝ)
  let newZoom := min 100 (max 0.5 (vp.zoom * factor))
  let vp1 : Viewport := { vp with zoom := newZoom }
  let n := vp1.project g.1 g.2
  vp1.pan ((n.1 : ℝ) - (px : ℝ)) ((n.2 : ℝ) - (py : ℝ))

/-- `Viewport::zoom_in_at`. -/
def zoomInAt (vp : Viewport) (px py : ℤ) : Viewport := vp.zoomAt px py 1.5

/-- `Viewport::zoom_out_at`. -/
def zoomOutAt (vp : Viewport) (px py : ℤ) : Viewport := vp.zoomAt px py (1 / 1.5)

/-- `Viewport::zoom_at` with the intermediate `as i32` pixel rounding
idealized to exact real arithmetic (the only change from `zoomAt`:
`projectR` instead of `project`). -/
def zoomAtR (vp : Viewport) (px py : ℝ) (factor : ℝ) : Viewport :=
  let g := vp.unproject px py
  let newZoom := min 100 (max 0.5 (vp.zoom * factor))
  let vp1 : Viewport := { vp with zoom := newZoom }
  let n := vp1.projectR g.1 g.2
  vp1.pan (n.1 - px) (n.2 - py)

end Viewport

/-! ### Inverse-Mercator identities -/

/-- Forward after inverse: `mercY` recovers the normalized `y` that
`unproject`'s latitude came from, for every real `t`. -/
theorem mercY_arctan_sinh (t : ℝ) :
    Viewport.mercY (Real.arctan (Real.sinh t) * 180 / π) = (1 - t / π) / 2 := by
  have hpi : (π : ℝ) ≠ 0 := Real.pi_ne_zero
  have harg : Real.arctan (Real.sinh t) * 180 / π * π / 180 = Real.arctan (Real.sinh t) := by
    field_simp
  unfold Viewport.mercY
  rw [harg, Real.tan_arctan, Real.cos_arctan]
  have hcosh : Real.sqrt (1 + Real.sinh t ^ 2) = Real.cosh t := by
    rw [← Real.cosh_sq']
    exact Real.sqrt_sq (Real.cosh_pos t).le
  rw [one_div, one_div, inv_inv, hcosh, Real.sinh_add_cosh, Real.log_exp]

/-- Inverse after forward: for `-90 < lat < 90`,
`arctan (sinh (π (1 - 2 mercY lat))) = lat·π/180`. -/
theorem arctan_sinh_mercY (lat : ℝ) (h1 : -90 < lat) (h2 : lat < 90) :
    Real.arctan (Real.sinh (π * (1 - 2 * Viewport.mercY lat))) = lat * π / 180 := by
  have hpi := Real.pi_pos
  have hφ1 : -(π / 2) < lat * π / 180 := by nlinarith
  have hφ2 : lat * π / 180 < π / 2 := by nlinarith
  have hcos : 0 < Real.cos (lat * π / 180) := Real.cos_pos_of_mem_Ioo ⟨hφ1, hφ2⟩
  have hsin : -1 < Real.sin (lat * π / 180) := by
    have hmem1 : -(π / 2) ∈ Set.Icc (-(π / 2)) (π / 2) := ⟨le_refl _, by nlinarith⟩
    have hmem2 : lat * π / 180 ∈ Set.Icc (-(π / 2)) (π / 2) := ⟨hφ1.le, hφ2.le⟩
    have hmono := Real.strictMonoOn_sin hmem1 hmem2 hφ1
    rwa [Real.sin_neg, Real.sin_pi_div_two] at hmono
  have hu : 0 < Real.tan (lat * π / 180) + 1 / Real.cos (lat * π / 180) := by
    rw [Real.tan_eq_sin_div_cos, div_add_div_same]
    exact div_pos (by linarith) hcos
  have harg : π * (1 - 2 * Viewport.mercY lat)
      = Real.log (Real.tan (lat * π / 180) + 1 / Real.cos (lat * π / 180)) := by
    unfold Viewport.mercY
    field_simp
    ring
  rw [harg, Real.sinh_log hu]
  have hc : Real.cos (lat * π / 180) ≠ 0 := hcos.ne'
  have hs1 : Real.sin (lat * π / 180) + 1 ≠ 0 := by
    intro h
    nlinarith
  have htan : (Real.tan (lat * π / 180) + 1 / Real.cos (lat * π / 180)
      - (Real.tan (lat * π / 180) + 1 / Real.cos (lat * π / 180))⁻¹) / 2
      = Real.tan (lat * π / 180) := by
    rw [Real.tan_eq_sin_div_cos, div_add_div_same, inv_div]
    have hs := Real.sin_sq_add_cos_sq (lat * π / 180)
    field_simp
    nlinarith [hs]
  rw [htan, Real.arctan_tan hφ1 hφ2]

end

/-! ## src/map/globe.rs `GlobeViewport` (orthographic sphere) -/

/-- glam `DVec3`. -/
structure Vec3 where
  x : ℝ
  y : ℝ
  z : ℝ

attribute [ext] Vec3

namespace Vec3

/-- Dot product. -/
noncomputable def dot (a b : Vec3) : ℝ := a.x * b.x + a.y * b.y + a.z * b.z

/-- Cross product. -/
noncomputable def cross (a b : Vec3) : Vec3 :=
  ⟨a.y * b.z - a.z * b.y, a.z * b.x - a.x * b.z, a.x * b.y - a.y * b.x⟩

/-- Scalar multiple (`v * c` in glam). -/
noncomputable def smul (c : ℝ) (v : Vec3) : Vec3 := ⟨c * v.x, c * v.y, c * v.z⟩

/-- Vector sum. -/
noncomputable def add (a b : Vec3) : Vec3 := ⟨a.x + b.x, a.y + b.y, a.z + b.z⟩

/-- Vector difference. -/
noncomputable def sub (a b : Vec3) : Vec3 := ⟨a.x - b.x, a.y - b.y, a.z - b.z⟩

/-- glam `normalize`: divide by the Euclidean length. -/
noncomputable def normalize (v : Vec3) : Vec3 := smul (1 / Real.sqrt (v.dot v)) v

theorem dot_comm (a b : Vec3) : a.dot b = b.dot a := by
  unfold dot
  ring

/-- `(u × r) · r = 0`. -/
theorem cross_dot_right (u r : Vec3) : (u.cross r).dot r = 0 := by
  unfold cross dot
  ring

/-- `(u × r) · u = 0`. -/
theorem cross_dot_left (u r : Vec3) : (u.cross r).dot u = 0 := by
  unfold cross dot
  ring

/-- Lagrange: `‖u × r‖² = ‖u‖²‖r‖² - (u·r)²`. -/
theorem cross_dot_cross (u r : Vec3) :
    (u.cross r).dot (u.cross r) = u.dot u * r.dot r - u.dot r ^ 2 := by
  unfold cross dot
  ring

/-- `(u × r) × w = (w·u) r - (w·r) u`. -/
theorem cross_cross_eq (u r w : Vec3) :
    (u.cross r).cross w = (smul (w.dot u) r).sub (smul (w.dot r) u) := by
  unfold cross dot smul sub
  refine Vec3.ext ?_ ?_ ?_ <;> dsimp <;> ring

/-- `f × (f × w) = (f·w) f - (f·f) w`. -/
theorem triple_self (f w : Vec3) :
    f.cross (f.cross w) = (smul (f.dot w) f).sub (smul (f.dot f) w) := by
  unfold cross dot smul sub
  refine Vec3.ext ?_ ?_ ?_ <;> dsimp <;> ring

theorem cross_zero_right (a : Vec3) : a.cross ⟨0, 0, 0⟩ = ⟨0, 0, 0⟩ := by
  unfold cross
  refine Vec3.ext ?_ ?_ ?_ <;> dsimp <;> ring

theorem sub_eq_zero_iff (a b : Vec3) : a.sub b = ⟨0, 0, 0⟩ ↔ a = b := by
  unfold sub
  constructor
  · intro h
    have hx := congrArg Vec3.x h
    have hy := congrArg Vec3.y h
    have hz := congrArg Vec3.z h
    dsimp at hx hy hz
    refine Vec3.ext ?_ ?_ ?_ <;> linarith
  · intro h
    rw [h]
    refine Vec3.ext ?_ ?_ ?_ <;> dsimp <;> ring

end Vec3

/-- Any vector expands in an orthonormal pair `r`, `u` completed by
`f = u × r`: `p = (p·r) r + (p·u) u + (p·f) f`. -/
theorem frame_expansion (r u : Vec3) (hr : r.dot r = 1) (hu : u.dot u = 1)
    (hru : r.dot u = 0) (p : Vec3) :
    (Vec3.smul (p.dot r) r).add ((Vec3.smul (p.dot u) u).add
      (Vec3.smul (p.dot (u.cross r)) (u.cross r))) = p := by
  set f := u.cross r with hf
  set q := (Vec3.smul (p.dot r) r).add ((Vec3.smul (p.dot u) u).add
      (Vec3.smul (p.dot f) f)) with hq
  set w := p.sub q with hwdef
  have hur : u.dot r = 0 := by rw [Vec3.dot_comm]; exact hru
  have hfr : f.dot r = 0 := by rw [hf]; exact Vec3.cross_dot_right u r
  have hfu : f.dot u = 0 := by rw [hf]; exact Vec3.cross_dot_left u r
  have hff : f.dot f = 1 := by
    rw [hf, Vec3.cross_dot_cross, hu, hr, hur]
    ring
  have hwr : w.dot r = 0 := by
    have hexp : w.dot r = p.dot r - (p.dot r * (r.dot r) + p.dot u * (u.dot r)
        + p.dot f * (f.dot r)) := by
      rw [hwdef, hq]
      unfold Vec3.dot Vec3.sub Vec3.add Vec3.smul
      dsimp
      ring
    rw [hexp, hr, hur, hfr]
    ring
  have hwu : w.dot u = 0 := by
    have hexp : w.dot u = p.dot u - (p.dot r * (r.dot u) + p.dot u * (u.dot u)
        + p.dot f * (f.dot u)) := by
      rw [hwdef, hq]
      unfold Vec3.dot Vec3.sub Vec3.add Vec3.smul
      dsimp
      ring
    rw [hexp, hru, hu, hfu]
    ring
  have hwf : w.dot f = 0 := by
    have hexp : w.dot f = p.dot f - (p.dot r * (r.dot f) + p.dot u * (u.dot f)
        + p.dot f * (f.dot f)) := by
      rw [hwdef, hq]
      unfold Vec3.dot Vec3.sub Vec3.add Vec3.smul
      dsimp
      ring
    rw [hexp, hff, Vec3.dot_comm r f, hfr, Vec3.dot_comm u f, hfu]
    ring
  have hfw0 : f.cross w = ⟨0, 0, 0⟩ := by
    rw [hf, Vec3.cross_cross_eq, hwu, hwr]
    unfold Vec3.smul Vec3.sub
    refine Vec3.ext ?_ ?_ ?_ <;> dsimp <;> ring
  have htriple := Vec3.triple_self f w
  rw [hfw0, Vec3.cross_zero_right] at htriple
  rw [Vec3.dot_comm f w] at htriple
  rw [hwf, hff] at htriple
  have hwzero : w = ⟨0, 0, 0⟩ := by
    have hx := congrArg Vec3.x htriple
    have hy := congrArg Vec3.y htriple
    have hz := congrArg Vec3.z htriple
    unfold Vec3.smul Vec3.sub at hx hy hz
    dsimp at hx hy hz
    refine Vec3.ext ?_ ?_ ?_ <;> dsimp <;> linarith
  have := (Vec3.sub_eq_zero_iff p q).mp hwzero
  exact this.symm

/-- src/map/globe.rs `lonlat_to_vec3`. -/
noncomputable def lonlatToVec3 (lon lat : ℝ) : Vec3 :=
  ⟨Real.cos (lat * π / 180) * Real.cos (lon * π / 180),
    Real.cos (lat * π / 180) * Real.sin (lon * π / 180),
    Real.sin (lat * π / 180)⟩

/-- `f64::atan2` (glam dot-product output angle): the argument of the
complex number `x + y i`, in `(-π, π]`. -/
noncomputable def atan2 (y x : ℝ) : ℝ := Complex.arg ⟨x, y⟩

/-- src/map/globe.rs `GlobeViewport`: orientation frame, sphere radius in
pixels, canvas size. -/
structure GlobeViewport where
  forward : Vec3
  right : Vec3
  up : Vec3
  radius : ℝ
  width : ℕ
  height : ℕ

namespace GlobeViewport

/-- `GlobeViewport::project` before the `as i32` casts: `None` for
back-face points (`depth < 0`). -/
noncomputable def projectR (g : GlobeViewport) (lon lat : ℝ) : Option (ℝ × ℝ) :=
  let p := lonlatToVec3 lon lat
  let depth := p.dot g.forward
  if depth < 0 then none
  else
    some ((g.width : ℝ) / 2 + p.dot g.right * g.radius,
      (g.height : ℝ) / 2 - p.dot g.up * g.radius)

/-- `GlobeViewport::project`: integer pixels via `as i32`. -/
noncomputable def project (g : GlobeViewport) (lon lat : ℝ) : Option (ℤ × ℤ) :=
  (g.projectR lon lat).map (fun q => (i32cast q.1, i32cast q.2))

/-- `GlobeViewport::unproject`: `None` outside the sphere disk, else
reconstruct the 3D point and read back lon/lat. -/
noncomputable def unproject (g : GlobeViewport) (px py : ℝ) : Option (ℝ × ℝ) :=
  let sx := (px - (g.width : ℝ) / 2) / g.radius
  let sy := -(py - (g.height : ℝ) / 2) / g.radius
  let r2 := sx * sx + sy * sy
  if r2 > 1 then none
  else
    let sz := Real.sqrt (1 - r2)
    let p := (Vec3.smul sx g.right).add ((Vec3.smul sy g.up).add (Vec3.smul sz g.forward))
    some (atan2 p.y p.x * 180 / π,
      Real.arcsin (min 1 (max (-1) p.z)) * 180 / π)

/-- `GlobeViewport::apply_momentum`: two small-angle rotations with
defensive re-normalization; near-zero velocities are no-ops. -/
noncomputable def applyMomentum (g : GlobeViewport) (velX velY : ℝ) : GlobeViewport :=
  let g1 :=
    if |velX| > 1e-10 then
      let nf := (Vec3.smul (Real.cos velX) g.forward).add (Vec3.smul (Real.sin velX) g.right)
      let nr := (Vec3.smul (Real.cos velX) g.right).sub (Vec3.smul (Real.sin velX) g.forward)
      { g with forward := nf.normalize, right := nr.normalize }
    else g
  if |velY| > 1e-10 then
    let nf := (Vec3.smul (Real.cos velY) g1.forward).add (Vec3.smul (Real.sin velY) g1.up)
    let nu := (Vec3.smul (Real.cos velY) g1.up).sub (Vec3.smul (Real.sin velY) g1.forward)
    { g1 with forward := nf.normalize, up := nu.normalize }
  else g1

/-- `GlobeViewport::effective_zoom`: `radius / (width * 0.35)`. -/
noncomputable def effectiveZoom (g : GlobeViewport) : ℝ :=
  g.radius / ((g.width : ℝ) * 0.35)

/-- The orthonormal-frame invariant of the globe camera (spec §3): `right`
and `up` are unit and orthogonal, and `forward = up × right` — the
orientation `GlobeViewport::new` establishes (`right = forward × raw_up`
normalized, `up = right × forward` normalized). -/
def frameOK (g : GlobeViewport) : Prop :=
  g.right.dot g.right = 1 ∧ g.up.dot g.up = 1 ∧ g.right.dot g.up = 0 ∧
    g.forward = g.up.cross g.right

end GlobeViewport

/-! ### Round-trip helper theorems (real-valued projections) -/

/-- `atan2` recovers the angle of a positively scaled direction. -/
theorem atan2_cos_sin (c θ : ℝ) (hc : 0 < c) (hθ : θ ∈ Set.Ioc (-π) π) :
    atan2 (c * Real.sin θ) (c * Real.cos θ) = θ := by
  unfold atan2
  have hsplit : (⟨c * Real.cos θ, c * Real.sin θ⟩ : ℂ)
      = (c : ℂ) * ⟨Real.cos θ, Real.sin θ⟩ := by
    simp [Complex.ext_iff, Complex.mul_re, Complex.mul_im]
  have hcs : (⟨Real.cos θ, Real.sin θ⟩ : ℂ)
      = Complex.cos θ + Complex.sin θ * Complex.I := by
    simp [Complex.ext_iff, Complex.cos_ofReal_re, Complex.sin_ofReal_re]
  rw [hsplit, hcs, Complex.arg_real_mul _ hc, Complex.arg_cos_add_sin_mul_I hθ]

/-- The flat (Mercator) real-valued projection inverts exactly:
`unproject (projectR p) = p` whenever `-90 < lat < 90` and the scale is
nonzero. -/
theorem merc_roundtrip (vp : Viewport) (lon lat : ℝ) (h1 : -90 < lat) (h2 : lat < 90)
    (hz : vp.zoom ≠ 0) (hw : (vp.width : ℝ) ≠ 0) :
    vp.unproject (vp.projectR lon lat).1 (vp.projectR lon lat).2 = (lon, lat) := by
  have hs : vp.zoom * (vp.width : ℝ) ≠ 0 := mul_ne_zero hz hw
  have hpi : (π : ℝ) ≠ 0 := Real.pi_ne_zero
  unfold Viewport.unproject Viewport.projectR
  simp only
  have hx : (((lon + 180) / 360 - (vp.center_lon + 180) / 360) * (vp.zoom * (vp.width : ℝ))
      + (vp.width : ℝ) / 2 - (vp.width : ℝ) / 2) / (vp.zoom * (vp.width : ℝ))
      + (vp.center_lon + 180) / 360 = (lon + 180) / 360 := by
    field_simp
    ring
  have hy : ((Viewport.mercY lat - Viewport.mercY vp.center_lat) * (vp.zoom * (vp.width : ℝ))
      + (vp.height : ℝ) / 2 - (vp.height : ℝ) / 2) / (vp.zoom * (vp.width : ℝ))
      + Viewport.mercY vp.center_lat = Viewport.mercY lat := by
    field_simp
  rw [hx, hy, arctan_sinh_mercY lat h1 h2]
  refine Prod.ext ?_ ?_
  · dsimp
    ring
  · dsimp
    field_simp

set_option maxHeartbeats 1600000 in
/-- The spherical real-valued orthographic projection inverts exactly on
the visible hemisphere, given the orthonormal-frame invariant. -/
theorem globe_roundtrip (g : GlobeViewport) (hf : g.frameOK) (hrad : 0 < g.radius)
    (lon lat : ℝ) (hlat1 : -90 < lat) (hlat2 : lat < 90)
    (hlon1 : -180 < lon) (hlon2 : lon ≤ 180)
    (hdepth : 0 ≤ (lonlatToVec3 lon lat).dot g.forward) :
    g.projectR lon lat
      = some ((g.width : ℝ) / 2 + (lonlatToVec3 lon lat).dot g.right * g.radius,
        (g.height : ℝ) / 2 - (lonlatToVec3 lon lat).dot g.up * g.radius) ∧
    g.unproject ((g.width : ℝ) / 2 + (lonlatToVec3 lon lat).dot g.right * g.radius)
      ((g.height : ℝ) / 2 - (lonlatToVec3 lon lat).dot g.up * g.radius) = some (lon, lat) := by
  obtain ⟨hr, hu, hru, hfwd⟩ := hf
  have hpi := Real.pi_pos
  have hpp : (lonlatToVec3 lon lat).dot (lonlatToVec3 lon lat) = 1 := by
    unfold lonlatToVec3 Vec3.dot
    dsimp
    nlinarith [Real.sin_sq_add_cos_sq (lat * π / 180), Real.sin_sq_add_cos_sq (lon * π / 180)]
  have hcomp : (lonlatToVec3 lon lat).x = Real.cos (lat * π / 180) * Real.cos (lon * π / 180)
      ∧ (lonlatToVec3 lon lat).y = Real.cos (lat * π / 180) * Real.sin (lon * π / 180)
      ∧ (lonlatToVec3 lon lat).z = Real.sin (lat * π / 180) := ⟨rfl, rfl, rfl⟩
  generalize hp : lonlatToVec3 lon lat = p at hdepth hpp hcomp ⊢
  obtain ⟨hpx, hpy, hpz⟩ := hcomp
  constructor
  · unfold GlobeViewport.projectR
    rw [hp]
    rw [if_neg (not_lt.mpr hdepth)]
  · have hexp := frame_expansion g.right g.up hr hu hru p
    have hpars : p.dot g.right ^ 2 + p.dot g.up ^ 2 + p.dot (g.up.cross g.right) ^ 2 = 1 := by
      have hL : ((Vec3.smul (p.dot g.right) g.right).add ((Vec3.smul (p.dot g.up) g.up).add
          (Vec3.smul (p.dot (g.up.cross g.right)) (g.up.cross g.right)))).dot p
          = p.dot g.right * (g.right.dot p) + p.dot g.up * (g.up.dot p)
            + p.dot (g.up.cross g.right) * ((g.up.cross g.right).dot p) := by
        unfold Vec3.dot Vec3.add Vec3.smul
        dsimp
        ring
      have hLp := congrArg (fun v => v.dot p) hexp
      dsimp at hLp
      rw [hL, hpp] at hLp
      rw [Vec3.dot_comm g.right p, Vec3.dot_comm g.up p,
        Vec3.dot_comm (g.up.cross g.right) p] at hLp
      nlinarith [hLp]
    have hdepth2 : 0 ≤ p.dot (g.up.cross g.right) := by
      rw [← hfwd]
      exact hdepth
    have hsx : ((g.width : ℝ) / 2 + p.dot g.right * g.radius - (g.width : ℝ) / 2) / g.radius
        = p.dot g.right := by
      field_simp
    have hsy : -((g.height : ℝ) / 2 - p.dot g.up * g.radius - (g.height : ℝ) / 2) / g.radius
        = p.dot g.up := by
      field_simp
    unfold GlobeViewport.unproject
    simp only [hsx, hsy]
    have hr2 : p.dot g.right * p.dot g.right + p.dot g.up * p.dot g.up
        = 1 - p.dot (g.up.cross g.right) ^ 2 := by
      nlinarith [hpars]
    rw [hr2]
    have hnotgt : ¬(1 - p.dot (g.up.cross g.right) ^ 2 > 1) := by
      nlinarith [sq_nonneg (p.dot (g.up.cross g.right))]
    rw [if_neg hnotgt]
    have hsz : Real.sqrt (1 - (1 - p.dot (g.up.cross g.right) ^ 2))
        = p.dot (g.up.cross g.right) := by
      rw [show 1 - (1 - p.dot (g.up.cross g.right) ^ 2) = p.dot (g.up.cross g.right) ^ 2 by ring]
      exact Real.sqrt_sq hdepth2
    rw [hsz]
    have hrecon : (Vec3.smul (p.dot g.right) g.right).add
        ((Vec3.smul (p.dot g.up) g.up).add
          (Vec3.smul (p.dot (g.up.cross g.right)) g.forward)) = p := by
      rw [hfwd]
      exact hexp
    rw [hrecon, hpx, hpy, hpz]
    have hcoslat : 0 < Real.cos (lat * π / 180) := by
      apply Real.cos_pos_of_mem_Ioo
      constructor
      · nlinarith
      · nlinarith
    have hlonmem : lon * π / 180 ∈ Set.Ioc (-π) π := by
      constructor
      · nlinarith
      · nlinarith
    rw [atan2_cos_sin _ _ hcoslat hlonmem]
    have hsin1 : Real.sin (lat * π / 180) ≤ 1 := Real.sin_le_one _
    have hsin2 : -1 ≤ Real.sin (lat * π / 180) := Real.neg_one_le_sin _
    rw [show min 1 (max (-1) (Real.sin (lat * π / 180))) = Real.sin (lat * π / 180) by
      rw [max_eq_right hsin2, min_eq_right hsin1]]
    rw [Real.arcsin_sin (by nlinarith) (by nlinarith)]
    have hlonback : lon * π / 180 * 180 / π = lon := by
      field_simp
    have hlatback : lat * π / 180 * 180 / π = lat := by
      field_simp
    rw [hlonback, hlatback]

/-! ### C6: projection round-trip -/

/-- A concrete Mercator camera: center (0°, 0°), zoom 1, 100×100 pixels. -/
def vpC6 : Viewport := ⟨0, 0, 1, 100, 100⟩

theorem mercY_zero : Viewport.mercY 0 = 1 / 2 := by
  unfold Viewport.mercY
  rw [zero_mul, zero_div]
  simp [Real.tan_zero, Real.cos_zero, Real.log_one]

theorem vpC6_projectR : vpC6.projectR (17 / 10) 0 = (50 + 17 / 36, 50) := by
  simp only [Viewport.projectR, vpC6, mercY_zero]
  norm_num

theorem vpC6_project : vpC6.project (17 / 10) 0 = (50, 50) := by
  unfold Viewport.project
  rw [vpC6_projectR]
  show (i32cast (50 + 17 / 36), i32cast 50) = (50, 50)
  have hf1 : ⌊(50:ℝ) + 17/36⌋ = 50 := by
    rw [Int.floor_eq_iff]; norm_num
  have hf2 : ⌊(50:ℝ)⌋ = 50 := by
    rw [Int.floor_eq_iff]; norm_num
  unfold i32cast
  rw [if_pos (by norm_num : (0:ℝ) ≤ 50 + 17/36), if_pos (by norm_num : (0:ℝ) ≤ 50)]
  rw [hf1, hf2]
  norm_num

theorem vpC6_unproject : vpC6.unproject 50 50 = (0, 0) := by
  simp only [Viewport.unproject, vpC6, mercY_zero]
  norm_num [Real.sinh_zero, Real.arctan_zero]

/-- **C6 counterexample**: the claim says `unproject (project p)` recovers
`p` exactly for the flat Viewport.  At camera (0°,0°), zoom 1, 100×100 and
`p = (1.7°, 0°)` — whose projection (50,50) is visible — the pipeline
through the `as i32` pixel cast returns (0°, 0°): an error of 1.7°, far
beyond any small epsilon. -/
theorem c6_counterexample :
    vpC6.project (17 / 10) 0 = (50, 50) ∧
    vpC6.isVisible 50 50 ∧
    vpC6.unproject 50 50 = (0, 0) ∧
    ((0 : ℝ), (0 : ℝ)) ≠ ((17 / 10 : ℝ), (0 : ℝ)) ∧
    (17 / 10 : ℝ) - 0 > 1 := by
  refine ⟨vpC6_project, ?_, vpC6_unproject, ?_, by norm_num⟩
  · refine ⟨by norm_num, ?_, by norm_num, ?_⟩ <;> · show _ < ((100:ℕ):ℤ) + 10; norm_num
  · intro h
    have := congrArg Prod.fst h
    norm_num at this

/-- **C6 (amended)**: with the integer-pixel cast idealized away, both
real-valued projections invert exactly on the visible region: the flat
variant for `-90 < lat < 90` (any longitude) at nonzero scale, and the
spherical variant for front-facing points given the orthonormal-frame
invariant.  (The actual pixel pipeline recovers `p` only up to one pixel's
geographic extent — see the counterexample.) -/
theorem c6_roundtrip_real :
    (∀ (vp : Viewport) (lon lat : ℝ), -90 < lat → lat < 90 →
      vp.zoom ≠ 0 → (vp.width : ℝ) ≠ 0 →
      vp.unproject (vp.projectR lon lat).1 (vp.projectR lon lat).2 = (lon, lat)) ∧
    (∀ (g : GlobeViewport) (lon lat : ℝ), g.frameOK → 0 < g.radius →
      -90 < lat → lat < 90 → -180 < lon → lon ≤ 180 →
      0 ≤ (lonlatToVec3 lon lat).dot g.forward →
      g.unproject ((g.width : ℝ) / 2 + (lonlatToVec3 lon lat).dot g.right * g.radius)
        ((g.height : ℝ) / 2 - (lonlatToVec3 lon lat).dot g.up * g.radius)
        = some (lon, lat)) := by
  constructor
  · intro vp lon lat h1 h2 hz hw
    exact merc_roundtrip vp lon lat h1 h2 hz hw
  · intro g lon lat hf hrad hlat1 hlat2 hlon1 hlon2 hdepth
    exact (globe_roundtrip g hf hrad lon lat hlat1 hlat2 hlon1 hlon2 hdepth).2

/-- A concrete globe camera looking at (0°, 0°): the frame the
construction produces there, radius 35, 100×100 pixels. -/
def gC6 : GlobeViewport := ⟨⟨1, 0, 0⟩, ⟨0, -1, 0⟩, ⟨0, 0, 1⟩, 35, 100, 100⟩

/-- Witness for `c6_roundtrip_real` at concrete cameras and the point
(0°, 0°). -/
theorem c6_roundtrip_real_witness :
    vpC6.unproject (vpC6.projectR 0 0).1 (vpC6.projectR 0 0).2 = (0, 0) ∧
    gC6.unproject ((gC6.width : ℝ) / 2 + (lonlatToVec3 0 0).dot gC6.right * gC6.radius)
      ((gC6.height : ℝ) / 2 - (lonlatToVec3 0 0).dot gC6.up * gC6.radius) = some (0, 0) := by
  constructor
  · exact c6_roundtrip_real.1 vpC6 0 0 (by norm_num) (by norm_num)
      (by show (1:ℝ) ≠ 0; norm_num) (by show ((100:ℕ):ℝ) ≠ 0; norm_num)
  · refine c6_roundtrip_real.2 gC6 0 0 ?_ (by show (0:ℝ) < 35; norm_num)
      (by norm_num) (by norm_num) (by norm_num) (by norm_num) ?_
    · refine ⟨?_, ?_, ?_, ?_⟩
      · show (0:ℝ) * 0 + (-1) * (-1) + 0 * 0 = 1
        norm_num
      · show (0:ℝ) * 0 + 0 * 0 + 1 * 1 = 1
        norm_num
      · show (0:ℝ) * 0 + (-1) * 0 + 0 * 1 = 0
        norm_num
      · show (⟨1, 0, 0⟩ : Vec3) = Vec3.cross ⟨0, 0, 1⟩ ⟨0, -1, 0⟩
        unfold Vec3.cross
        refine Vec3.ext ?_ ?_ ?_ <;> norm_num
    · show 0 ≤ (lonlatToVec3 0 0).dot gC6.forward
      unfold lonlatToVec3 Vec3.dot gC6
      rw [zero_mul, zero_div]
      simp [Real.cos_zero, Real.sin_zero]

/-! ### C7: zoom-at-point round-trip -/

/-- Closed form of the center longitude after one ideal `zoom_at` by
factor `f` (no clamp/wrap engaged). -/
noncomputable def lonAfter (vp : Viewport) (px f : ℝ) : ℝ :=
  vp.center_lon + (px - (vp.width : ℝ) / 2) * 360
    * (1 / (vp.zoom * vp.width) - 1 / (vp.zoom * f * vp.width))

/-- Closed form of the center latitude after one ideal `zoom_at` by
factor `f` (no clamp/wrap engaged). -/
noncomputable def latAfter (vp : Viewport) (py f : ℝ) : ℝ :=
  vp.center_lat - (py - (vp.height : ℝ) / 2) * 180
    * (1 / (vp.zoom * vp.width) - 1 / (vp.zoom * f * vp.width))

/-- One ideal `zoom_at` step evaluates to the closed forms, provided the
zoom clamp, longitude wrap and latitude clamp stay inactive. -/
theorem zoomAtR_eval (vp : Viewport) (px py f : ℝ) (hz : vp.zoom ≠ 0)
    (hw : (vp.width : ℝ) ≠ 0) (hf : f ≠ 0)
    (hclamp : min 100 (max 0.5 (vp.zoom * f)) = vp.zoom * f)
    (hlon1 : -180 ≤ lonAfter vp px f) (hlon2 : lonAfter vp px f ≤ 180)
    (hlat1 : -85 ≤ latAfter vp py f) (hlat2 : latAfter vp py f ≤ 85) :
    vp.zoomAtR px py f
      = ⟨lonAfter vp px f, latAfter vp py f, vp.zoom * f, vp.width, vp.height⟩ := by
  have hpi : (π : ℝ) ≠ 0 := Real.pi_ne_zero
  have hzw : vp.zoom * (vp.width : ℝ) ≠ 0 := mul_ne_zero hz hw
  unfold Viewport.zoomAtR Viewport.unproject Viewport.projectR Viewport.pan
  simp only [hclamp]
  rw [mercY_arctan_sinh]
  have hraw1 : vp.center_lon
      + (((((px - (vp.width : ℝ) / 2) / (vp.zoom * (vp.width : ℝ))
          + (vp.center_lon + 180) / 360) * 360 - 180 + 180) / 360
          - (vp.center_lon + 180) / 360) * (vp.zoom * f * (vp.width : ℝ))
          + (vp.width : ℝ) / 2 - px) * (360 / (vp.zoom * f * (vp.width : ℝ)))
      = lonAfter vp px f := by
    unfold lonAfter
    field_simp
    ring
  have hraw2 : vp.center_lat
      - (((1 - π * (1 - 2 * ((py - (vp.height : ℝ) / 2) / (vp.zoom * (vp.width : ℝ))
          + Viewport.mercY vp.center_lat)) / π) / 2
          - Viewport.mercY vp.center_lat) * (vp.zoom * f * (vp.width : ℝ))
          + (vp.height : ℝ) / 2 - py) * (360 / (vp.zoom * f * (vp.width : ℝ))) * 0.5
      = latAfter vp py f := by
    unfold latAfter
    field_simp
    ring
  rw [hraw1, hraw2]
  rw [if_neg (not_lt.mpr hlon2), if_neg (not_lt.mpr hlon1)]
  rw [max_eq_right hlat1, min_eq_right hlat2]

/-- **C7 (amended)**: with the integer-pixel rounding idealized to exact
real arithmetic, and provided neither the zoom clamp (`[0.5, 100]`) nor
the latitude clamp (±85°) nor the longitude wrap engages during either
pan, `zoom_in_at(px,py)` followed by `zoom_out_at(px,py)` restores the
Mercator camera exactly.  (At the zoom clamp the round trip moves the
camera — see the counterexample; the spherical variant carries the
residual of its single small-angle correction, spec §4.1, and is not
claimed exact.) -/
theorem c7_zoom_roundtrip_ideal (vp : Viewport) (px py : ℝ)
    (hw : (vp.width : ℝ) ≠ 0)
    (hz1 : 1 / 2 ≤ vp.zoom) (hz2 : vp.zoom * 1.5 ≤ 100)
    (hlon0a : -180 ≤ vp.center_lon) (hlon0b : vp.center_lon ≤ 180)
    (hlat0a : -85 ≤ vp.center_lat) (hlat0b : vp.center_lat ≤ 85)
    (hlonA1 : -180 ≤ lonAfter vp px 1.5) (hlonA2 : lonAfter vp px 1.5 ≤ 180)
    (hlatA1 : -85 ≤ latAfter vp py 1.5) (hlatA2 : latAfter vp py 1.5 ≤ 85) :
    (vp.zoomAtR px py 1.5).zoomAtR px py (1 / 1.5) = vp := by
  have hz : vp.zoom ≠ 0 := by
    intro h
    rw [h] at hz1
    norm_num at hz1
  have hclamp1 : min 100 (max 0.5 (vp.zoom * 1.5)) = vp.zoom * 1.5 := by
    rw [max_eq_right (by nlinarith), min_eq_right hz2]
  have h1 := zoomAtR_eval vp px py 1.5 hz hw (by norm_num) hclamp1 hlonA1 hlonA2 hlatA1 hlatA2
  rw [h1]
  set vpA : Viewport :=
    ⟨lonAfter vp px 1.5, latAfter vp py 1.5, vp.zoom * 1.5, vp.width, vp.height⟩ with hvpA
  have hzA : vpA.zoom ≠ 0 := by
    show vp.zoom * 1.5 ≠ 0
    intro h
    have : vp.zoom = 0 := by nlinarith
    exact hz this
  have hzback : vpA.zoom * (1 / 1.5) = vp.zoom := by
    show vp.zoom * 1.5 * (1 / 1.5) = vp.zoom
    norm_num
    ring
  have hclamp2 : min 100 (max 0.5 (vpA.zoom * (1 / 1.5))) = vpA.zoom * (1 / 1.5) := by
    rw [hzback, max_eq_right (by nlinarith), min_eq_right (by nlinarith)]
  have hlonF : lonAfter vpA px (1 / 1.5) = vp.center_lon := by
    show lonAfter vp px 1.5 + (px - (vp.width : ℝ) / 2) * 360
        * (1 / (vp.zoom * 1.5 * vp.width) - 1 / (vp.zoom * 1.5 * (1 / 1.5) * vp.width))
        = vp.center_lon
    unfold lonAfter
    field_simp
    ring
  have hlatF : latAfter vpA py (1 / 1.5) = vp.center_lat := by
    show latAfter vp py 1.5 - (py - (vp.height : ℝ) / 2) * 180
        * (1 / (vp.zoom * 1.5 * vp.width) - 1 / (vp.zoom * 1.5 * (1 / 1.5) * vp.width))
        = vp.center_lat
    unfold latAfter
    field_simp
    ring
  have h2 := zoomAtR_eval vpA px py (1 / 1.5) hzA hw (by norm_num) hclamp2
    (by rw [hlonF]; exact hlon0a) (by rw [hlonF]; exact hlon0b)
    (by rw [hlatF]; exact hlat0a) (by rw [hlatF]; exact hlat0b)
  rw [h2]
  refine Viewport.ext ?_ ?_ ?_ ?_ ?_
  · exact hlonF
  · exact hlatF
  · exact hzback
  · rfl
  · rfl

theorem unproject_center (z : ℝ) :
    (Viewport.mk 0 0 z 100 100).unproject 50 50 = (0, 0) := by
  simp only [Viewport.unproject, mercY_zero]
  norm_num [Real.sinh_zero, Real.arctan_zero, zero_div]

theorem projectR_center (z : ℝ) :
    (Viewport.mk 0 0 z 100 100).projectR 0 0 = (50, 50) := by
  simp only [Viewport.projectR, mercY_zero]
  norm_num

theorem project_center (z : ℝ) :
    (Viewport.mk 0 0 z 100 100).project 0 0 = (50, 50) := by
  unfold Viewport.project
  rw [projectR_center]
  show (i32cast 50, i32cast 50) = (50, 50)
  unfold i32cast
  rw [if_pos (by norm_num : (0:ℝ) ≤ 50)]
  rw [show ⌊(50:ℝ)⌋ = 50 by rw [Int.floor_eq_iff]; norm_num]
  norm_num

theorem pan_center_zero (z : ℝ) :
    (Viewport.mk 0 0 z 100 100).pan 0 0 = Viewport.mk 0 0 z 100 100 := by
  unfold Viewport.pan
  norm_num

theorem zoomAt_center (z ftr : ℝ) :
    (Viewport.mk 0 0 z 100 100).zoomAt 50 50 ftr
      = Viewport.mk 0 0 (min 100 (max 0.5 (z * ftr))) 100 100 := by
  unfold Viewport.zoomAt
  rw [show ((50 : ℤ) : ℝ) = (50 : ℝ) by norm_num]
  rw [unproject_center]
  show (Viewport.mk 0 0 (min 100 (max 0.5 (z * ftr))) 100 100).pan
    (((Viewport.mk 0 0 (min 100 (max 0.5 (z * ftr))) 100 100).project 0 0).1 - 50)
    (((Viewport.mk 0 0 (min 100 (max 0.5 (z * ftr))) 100 100).project 0 0).2 - 50) = _
  rw [project_center]
  show (Viewport.mk 0 0 (min 100 (max 0.5 (z * ftr))) 100 100).pan
    (((50 : ℤ) : ℝ) - 50) (((50 : ℤ) : ℝ) - 50) = _
  rw [show ((50 : ℤ) : ℝ) - 50 = 0 by norm_num]
  exact pan_center_zero _

/-- A concrete Mercator camera at the maximum zoom clamp. -/
def vpC7 : Viewport := ⟨0, 0, 100, 100, 100⟩

/-- **C7 counterexample**: at the zoom clamp (zoom = 100, the maximum),
`zoom_in_at(50,50)` then `zoom_out_at(50,50)` at the center pixel leaves
the center untouched but lands the zoom at 200/3 instead of 100 — a change
of 33⅓, not within any small epsilon. -/
theorem c7_counterexample :
    ((vpC7.zoomInAt 50 50).zoomOutAt 50 50).zoom = 200 / 3 ∧
    vpC7.zoom = 100 ∧ ((200 : ℝ) / 3 ≠ 100) ∧ |(100 : ℝ) - 200 / 3| > 30 := by
  have h1 : vpC7.zoomInAt 50 50 = Viewport.mk 0 0 100 100 100 := by
    show (Viewport.mk 0 0 100 100 100).zoomAt 50 50 1.5 = _
    rw [zoomAt_center]
    rw [show min (100:ℝ) (max 0.5 (100 * 1.5)) = 100 by
      rw [max_eq_right (by norm_num), min_eq_left (by norm_num)]]
  have h2 : (Viewport.mk (0:ℝ) 0 100 100 100).zoomOutAt 50 50
      = Viewport.mk 0 0 (200 / 3) 100 100 := by
    show (Viewport.mk (0:ℝ) 0 100 100 100).zoomAt 50 50 (1 / 1.5) = _
    rw [zoomAt_center]
    rw [show (100:ℝ) * (1 / 1.5) = 200 / 3 by norm_num]
    rw [show max (0.5:ℝ) (200 / 3) = 200 / 3 by rw [max_eq_right (by norm_num)]]
    rw [show min (100:ℝ) (200 / 3) = 200 / 3 by rw [min_eq_right (by norm_num)]]
  refine ⟨?_, rfl, by norm_num, by rw [abs_of_pos] <;> norm_num⟩
  rw [show vpC7.zoomInAt 50 50 = Viewport.mk 0 0 100 100 100 from h1, h2]

/-- Witness for `c7_zoom_roundtrip_ideal`: camera (0°, 20°N), zoom 1,
100×100, cursor pixel (10, 10). -/
theorem c7_zoom_roundtrip_ideal_witness :
    ((Viewport.mk 0 20 1 100 100).zoomAtR 10 10 1.5).zoomAtR 10 10 (1 / 1.5)
      = Viewport.mk 0 20 1 100 100 := by
  refine c7_zoom_roundtrip_ideal (Viewport.mk 0 20 1 100 100) 10 10 ?_ ?_ ?_ ?_ ?_ ?_ ?_
    ?_ ?_ ?_ ?_ <;>
    norm_num [lonAfter, latAfter]

/-! ## src/app.rs: disaster simulation

`f64::to_bits` (hash seeding) and `MapRenderer::is_on_land` are the two
data-dependent inputs, kept as parameters `toBits` / `landCheck` as stated
in the header.  `SpatialGrid::query_radius` iterates a `HashMap` in
unspecified order; since each city index occurs in exactly one cell the
candidate set is duplicate-free and every per-city update below commutes,
so the fold is modelled as a pointwise map guarded by membership in the
queried cell range. -/

open scoped Classical

/-- Rust `x as u64` / `x as usize` on an `f64`: truncate toward zero,
saturating at 0 from below (upper saturation is unreachable here). -/
noncomputable def natTrunc (x : ℝ) : ℕ := (⌊x⌋).toNat

/-- src/geo.rs `normalize_lon` over the simulation's real-valued coords. -/
noncomputable def normalizeLonR (lon : ℝ) : ℝ := lon + 180 - 360 * ⌊(lon + 180) / 360⌋

/-- src/geo.rs `normalize_lat` over the simulation's real-valued coords. -/
noncomputable def normalizeLatR (lat : ℝ) : ℝ := min (max (lat + 90) 0) 179.999

/-- src/app.rs `fast_distance_km`: equirectangular approximation. -/
noncomputable def fastDistanceKm (lon1 lat1 lon2 lat2 : ℝ) : ℝ :=
  let dlat := (lat2 - lat1) * 0.017453292519943295
  let dlon := (lon2 - lon1) * 0.017453292519943295
  let cosLat := Real.cos ((lat1 + lat2) * 0.5 * 0.017453292519943295)
  6371 * Real.sqrt (dlon * cosLat * (dlon * cosLat) + dlat * dlat)

/-- src/map/renderer.rs `City` (name string omitted; flags immutable). -/
structure City where
  lon : ℝ
  lat : ℝ
  population : ℕ
  originalPopulation : ℕ
  radius_km : ℝ

/-- src/app.rs `Fire`. -/
structure Fire where
  lon : ℝ
  lat : ℝ
  intensity : ℕ

/-- src/app.rs `Explosion`. -/
structure Explosion where
  lon : ℝ
  lat : ℝ
  frame : ℕ
  radius_km : ℝ

/-- src/app.rs `Fallout`. -/
structure Fallout where
  lon : ℝ
  lat : ℝ
  radius_km : ℝ
  intensity : ℕ

/-- Modelled from the spec: the `Projection` sum type.  `src/map/mod.rs`
re-exports `Projection` from `projection.rs`, but its definition is absent
from the provided sources; spec §3/§4.1 describe it as a tagged choice of
the two viewport variants whose shared operations dispatch on the tag,
with `effective_zoom` normalized so both variants report 1.0 at whole
world visible (the Mercator world view has `zoom = 1`, so its effective
zoom is its `zoom`; the globe's is `radius / (width * 0.35)` from
src/map/globe.rs). -/
inductive Proj where
  | mercator (vp : Viewport)
  | globe (g : GlobeViewport)

namespace Proj

/-- Modelled from the spec: dispatching `unproject`; the Mercator variant
always succeeds, the globe returns `None` outside the disk (spec §4.1). -/
noncomputable def unproject : Proj → ℝ → ℝ → Option (ℝ × ℝ)
  | mercator vp, px, py => some (vp.unproject px py)
  | globe g, px, py => g.unproject px py

/-- Modelled from the spec: dispatching `effective_zoom` (glossary: 1.0 at
whole-world view for both variants). -/
noncomputable def effectiveZoom : Proj → ℝ
  | mercator vp => vp.zoom
  | globe g => g.effectiveZoom

end Proj

/-- src/app.rs `FireGrid::rebuild`, as the contents function of the cell
vector: per-cell maximum intensity over the fires that index into it
(out-of-range indexed fires are skipped by the source's bound check). -/
noncomputable def fireGridRebuild (res : ℝ) (width height : ℕ) (fires : List Fire) : ℕ → ℕ :=
  fun idx =>
    if idx < width * height then
      ((fires.filter (fun f =>
        natTrunc (normalizeLatR f.lat / res) * width + natTrunc (normalizeLonR f.lon / res)
          = idx)).map Fire.intensity).foldr max 0
    else 0

/-- src/app.rs `App` (the simulation-relevant fields; `map_renderer` is
represented by its mutable city collection, its land grid being the
`landCheck` parameter; `should_quit` and cursor bookkeeping omitted). -/
structure AppState where
  proj : Proj
  cities : List City
  explosions : List Explosion
  fires : List Fire
  fireGrid : ℕ → ℕ
  fireGridFine : ℕ → ℕ
  fallout : List Fallout
  casualties : ℕ
  frame : ℕ
  lastNukeFrame : ℕ
  lastMouse : Option (ℕ × ℕ)
  spin : ℝ × ℝ

/-- `App::new` (src/app.rs): Mercator world view on the braille pixel
grid, empty entity collections, zeroed counters. -/
noncomputable def freshApp (width height : ℕ) : AppState :=
  { proj := Proj.mercator (Viewport.world ((width - 2) * 2) ((height - 3) * 4))
    cities := []
    explosions := []
    fires := []
    fireGrid := fun _ => 0
    fireGridFine := fun _ => 0
    fallout := []
    casualties := 0
    frame := 0
    lastNukeFrame := 0
    lastMouse := none
    spin := (0, 0) }

/-- Membership in `SpatialGrid::query_radius` (cell size 10°) output: the
city's cell lies in the square of cells within `ceil(radius/10)` of the
query point's cell. -/
noncomputable def inQueryRadius (lon lat rdeg : ℝ) (c : City) : Prop :=
  let cr := ⌈rdeg / 10⌉
  ⌊lon / 10⌋ - cr ≤ ⌊c.lon / 10⌋ ∧ ⌊c.lon / 10⌋ ≤ ⌊lon / 10⌋ + cr ∧
    ⌊lat / 10⌋ - cr ≤ ⌊c.lat / 10⌋ ∧ ⌊c.lat / 10⌋ ≤ ⌊lat / 10⌋ + cr

/-- The `killed` computation of `App::apply_blast_damage`. -/
noncomputable def blastKilled (lon lat radius : ℝ) (c : City) : ℕ :=
  let d := fastDistanceKm lon lat c.lon c.lat
  if d < c.radius_km then
    c.population
  else if d < radius * 0.3 then
    natTrunc ((c.population : ℝ) * max (1 - (d / (radius * 0.3)) ^ 2) 0.8)
  else
    natTrunc ((c.population : ℝ) * max (1 - ((d - c.radius_km) / radius) ^ 2) 0 * 0.7
      * min (c.radius_km / 10) 2)

/-- `App::apply_blast_damage`: one-shot saturating damage to every
candidate city whose circle overlaps the blast circle. -/
noncomputable def applyBlastDamage (s : AppState) (lon lat radius : ℝ) : AppState :=
  let hit : City → Prop := fun c =>
    inQueryRadius lon lat ((radius + 50) / 111) c ∧ c.population ≠ 0 ∧
      fastDistanceKm lon lat c.lon c.lat < radius + c.radius_km
  { s with
    cities := s.cities.map (fun c =>
      if hit c then { c with population := c.population - blastKilled lon lat radius c } else c)
    casualties := s.casualties
      + (s.cities.map (fun c => if hit c then blastKilled lon lat radius c else 0)).sum }

/-- `App::apply_ongoing_damage`: small proportional recurring damage
(at least 1) to candidate cities overlapping the zone. -/
noncomputable def applyOngoingDamage (s : AppState) (lon lat radius rate : ℝ) : AppState :=
  let hit : City → Prop := fun c =>
    inQueryRadius lon lat ((radius + 50) / 111) c ∧ c.population ≠ 0 ∧
      fastDistanceKm lon lat c.lon c.lat < radius + c.radius_km
  let dmg : City → ℕ := fun c => max (natTrunc ((c.population : ℝ) * rate)) 1
  { s with
    cities := s.cities.map (fun c =>
      if hit c then { c with population := c.population - dmg c } else c)
    casualties := s.casualties + (s.cities.map (fun c => if hit c then dmg c else 0)).sum }

/-- The 3×3 neighborhood probed by `apply_fire_damage_to_cities`, in loop
order (`dy` outer, `dx` inner). -/
def offsets3x3 : List (ℤ × ℤ) :=
  [(-1, -1), (-1, 0), (-1, 1), (0, -1), (0, 0), (0, 1), (1, -1), (1, 0), (1, 1)]

/-- The count of burning (`> 50`) cells in the 3×3 fine-grid neighborhood
of a city (`App::apply_fire_damage_to_cities`, grid 0.25°, 1440×720). -/
noncomputable def burningCells (grid : ℕ → ℕ) (c : City) : ℕ :=
  let cx := i32cast (normalizeLonR c.lon / 0.25)
  let cy := i32cast (normalizeLatR c.lat / 0.25)
  (offsets3x3.filter (fun d =>
    50 < grid ((min 719 (max 0 (cy + d.1))).toNat * 1440
      + (min 1439 (max 0 (cx + d.2))).toNat))).length

/-- Per-city damage of `App::apply_fire_damage_to_cities`. -/
noncomputable def fireDamageAmount (grid : ℕ → ℕ) (c : City) : ℕ :=
  if c.population = 0 then 0
  else if 0 < burningCells grid c then
    max (natTrunc ((c.population : ℝ) * 0.01 * (burningCells grid c : ℝ))) 1
  else 0

/-- `App::apply_fire_damage_to_cities`: flipped join, probing the fine
fire grid around each city. -/
noncomputable def applyFireDamage (s : AppState) : AppState :=
  { s with
    cities := s.cities.map (fun c =>
      { c with population := c.population - fireDamageAmount s.fireGridFine c })
    casualties := s.casualties + (s.cities.map (fireDamageAmount s.fireGridFine)).sum }

/-- The target fire count of `App::launch_nuke`:
`((π r² / 5) as usize + 200).min(20000)`. -/
noncomputable def targetFires (radius : ℝ) : ℕ :=
  min (natTrunc (π * radius * radius / 5) + 200) 20000

/-- The rejection-sampling spawn loop of `App::launch_nuke`.  The source
loop runs while `spawned < target && attempt < target * 2` and increments
`attempt` every iteration; `fuel` is the remaining attempt budget
(`2 * target - attempt`), making the recursion structural. -/
noncomputable def spawnFires (landCheck : ℝ → ℝ → Bool) (lon lat radius cosLat : ℝ)
    (target : ℕ) : ℕ → ℕ → ℕ → List Fire
  | 0, _, _ => []
  | fuel + 1, spawned, attempt =>
    if spawned < target then
      let angle := ((randSimple (wmul attempt 7919) : ℚ) : ℝ) * (2 * π)
      let dist := radius * Real.sqrt ((randSimple (wmul attempt 6547) : ℚ) : ℝ)
      let fLon := lon + dist * Real.cos angle / (111 * cosLat)
      let fLat := lat + dist * Real.sin angle / 111
      if landCheck fLon fLat then
        { lon := fLon, lat := fLat,
          intensity := natTrunc (min (200 + (1 - dist / radius) * 55
            + ((randSimple (wadd (attempt + 1) 1000) : ℚ) : ℝ) * 30) 255) }
          :: spawnFires landCheck lon lat radius cosLat target fuel (spawned + 1) (attempt + 1)
      else
        spawnFires landCheck lon lat radius cosLat target fuel spawned (attempt + 1)
    else []

/-- src/app.rs `App::launch_nuke`: cooldown guard, unproject (silent no-op
on `None`), explosion + fire spawning + fallout creation, then one-shot
blast damage. -/
noncomputable def launchNuke (landCheck : ℝ → ℝ → Bool) (s : AppState) (col row : ℕ) :
    AppState :=
  if s.frame < s.lastNukeFrame + 15 then s
  else
    match s.proj.unproject (((col - 1 : ℕ) : ℝ) * 2) (((row - 1 : ℕ) : ℝ) * 4) with
    | none => s
    | some q =>
      let radius := 50 + 700 / s.proj.effectiveZoom
      let target := targetFires radius
      let cosLat := max (Real.cos (q.2 * π / 180)) 0.1
      let s1 : AppState :=
        { s with
          lastNukeFrame := s.frame
          explosions := s.explosions ++ [⟨q.1, q.2, 0, radius⟩]
          fires := s.fires
            ++ spawnFires landCheck q.1 q.2 radius cosLat target (2 * target) 0 0
          fallout := s.fallout ++ [⟨q.1, q.2, radius * 2, 1000⟩] }
      applyBlastDamage s1 q.1 q.2 radius

/-- The per-fire decay step of `App::update_explosions` (every 5th frame). -/
noncomputable def decayFire (frame : ℕ) (f : Fire) : Fire :=
  if frame % 5 = 0 then { f with intensity := f.intensity - 1 } else f

/-- The per-fire spread-candidate generation of `App::update_explosions`:
hash-gated, spawning `num_spreads ∈ {1, 2}` candidates at reduced
intensity.  `toBits` models `f64::to_bits` of `coord * 10000.0`. -/
noncomputable def spreadCandidates (toBits : ℝ → ℕ) (frame : ℕ) (f : Fire) : List Fire :=
  if 60 < f.intensity then
    let lonBits := toBits (f.lon * 10000)
    let latBits := toBits (f.lat * 10000)
    if (0.85 : ℚ) < randSimple (hash3 lonBits latBits frame) then
      let numSpreads : ℕ :=
        if (0.7 : ℚ) < randSimple (hash3 latBits lonBits frame) then 2 else 1
      (List.range numSpreads).map (fun sIdx =>
        let seed := hash3 lonBits latBits (wadd frame sIdx)
        let spreadDist := (0.03 : ℝ) + ((randSimple seed : ℚ) : ℝ) * 0.15
        let angle := ((randSimple (wmul seed 31337) : ℚ) : ℝ) * (2 * π)
        { lon := f.lon + spreadDist * Real.cos angle
          lat := f.lat + spreadDist * Real.sin angle
          intensity := f.intensity - 10 })
    else []
  else []

/-- The explosion `retain_mut` block of `update_explosions`: advance the
animation frame, keep while below the 60-frame lifetime. -/
noncomputable def tickExplosions (es : List Explosion) : List Explosion :=
  (es.map (fun e => { e with frame := (e.frame + 1) % 256 })).filter (fun e => e.frame < 60)

/-- The fallout `retain_mut` block of `update_explosions`: saturating
decay by 1, keep while positive. -/
noncomputable def tickFallout (zs : List Fallout) : List Fallout :=
  (zs.map (fun z => { z with intensity := z.intensity - 1 })).filter (fun z => 0 < z.intensity)

/-- The fire `retain_mut` block plus spread admission of
`update_explosions`: decay, collect spread candidates, drop dead fires,
land-filter the candidates and admit them up to the 30000 cap. -/
noncomputable def tickFires (toBits : ℝ → ℕ) (landCheck : ℝ → ℝ → Bool) (frame : ℕ)
    (fires : List Fire) : List Fire :=
  let decayed := fires.map (decayFire frame)
  let newFires := decayed.flatMap (spreadCandidates toBits frame)
  let fires1 := decayed.filter (fun f => 0 < f.intensity)
  let newFires2 := newFires.filter (fun f => landCheck f.lon f.lat)
  fires1 ++ newFires2.take (min newFires2.length (30000 - fires1.length))

/-- The globe-momentum block of `update_explosions` (applies only in
globe mode when not dragging and the spin is above threshold). -/
noncomputable def tickMomentum (s : AppState) : Proj × (ℝ × ℝ) :=
  if s.lastMouse = none then
    if 0.0001 < |s.spin.1| ∨ 0.0001 < |s.spin.2| then
      (match s.proj with
        | Proj.globe g => Proj.globe (g.applyMomentum s.spin.1 s.spin.2)
        | p => p,
        (s.spin.1 * 0.95, s.spin.2 * 0.95))
    else (s.proj, s.spin)
  else (s.proj, s.spin)

/-- src/app.rs `App::update_explosions`: the per-frame tick — frame
increment, globe momentum, explosion animation/expiry, fire decay +
spread + land filter + 30000-cap admission, fallout decay, throttled
city damage, fire-grid rebuilds. -/
noncomputable def tick (toBits : ℝ → ℕ) (landCheck : ℝ → ℝ → Bool) (s : AppState) :
    AppState :=
  let frame := (s.frame + 1) % U64
  let pm := tickMomentum s
  let fallout1 := tickFallout s.fallout
  let s1 : AppState :=
    { s with
      proj := pm.1
      spin := pm.2
      frame := frame
      explosions := tickExplosions s.explosions
      fires := tickFires toBits landCheck frame s.fires
      fallout := fallout1 }
  let s2 :=
    if frame % 10 = 0 then
      fallout1.foldl (fun acc z =>
        if 0 < z.intensity then
          applyOngoingDamage acc z.lon z.lat z.radius_km ((z.intensity : ℝ) / 10000 * 0.05)
        else acc) (applyFireDamage s1)
    else s1
  { s2 with fireGrid := fireGridRebuild 1 360 180 s2.fires
            fireGridFine := fireGridRebuild 0.25 1440 720 s2.fires }

/-! ### C1: population monotonicity -/

/-- Pointwise population dominance between two city lists (forces equal
length, so it also witnesses that no city entity is ever removed). -/
def citiesLE (a b : List City) : Prop :=
  List.Forall₂ (fun c' c => c'.population ≤ c.population) a b

theorem citiesLE_refl (l : List City) : citiesLE l l := by
  induction l with
  | nil => exact List.Forall₂.nil
  | cons a t ih => exact List.Forall₂.cons (le_refl _) ih

theorem citiesLE_map (l : List City) (f : City → City)
    (h : ∀ c, (f c).population ≤ c.population) : citiesLE (l.map f) l := by
  induction l with
  | nil => exact List.Forall₂.nil
  | cons a t ih => exact List.Forall₂.cons (h a) ih

theorem citiesLE_trans {a b c : List City} (h1 : citiesLE a b) (h2 : citiesLE b c) :
    citiesLE a c := by
  induction h1 generalizing c with
  | nil =>
    cases h2
    exact List.Forall₂.nil
  | cons hab _ ih =>
    cases h2 with
    | cons hbc t2 => exact List.Forall₂.cons (le_trans hab hbc) (ih t2)

theorem applyBlastDamage_citiesLE (s : AppState) (lon lat radius : ℝ) :
    citiesLE (applyBlastDamage s lon lat radius).cities s.cities := by
  unfold applyBlastDamage
  apply citiesLE_map
  intro c
  dsimp only
  split
  · exact Nat.sub_le _ _
  · exact le_refl _

theorem applyOngoingDamage_citiesLE (s : AppState) (lon lat radius rate : ℝ) :
    citiesLE (applyOngoingDamage s lon lat radius rate).cities s.cities := by
  unfold applyOngoingDamage
  apply citiesLE_map
  intro c
  dsimp only
  split
  · exact Nat.sub_le _ _
  · exact le_refl _

theorem applyFireDamage_citiesLE (s : AppState) :
    citiesLE (applyFireDamage s).cities s.cities := by
  unfold applyFireDamage
  apply citiesLE_map
  intro c
  exact Nat.sub_le _ _

theorem launchNuke_citiesLE (landCheck : ℝ → ℝ → Bool) (s : AppState) (col row : ℕ) :
    citiesLE (launchNuke landCheck s col row).cities s.cities := by
  unfold launchNuke
  split
  · exact citiesLE_refl _
  · split
    · exact citiesLE_refl _
    · exact applyBlastDamage_citiesLE _ _ _ _

theorem foldOngoing_citiesLE (zs : List Fallout) (s0 : AppState) :
    citiesLE ((zs.foldl (fun acc z =>
      if 0 < z.intensity then
        applyOngoingDamage acc z.lon z.lat z.radius_km ((z.intensity : ℝ) / 10000 * 0.05)
      else acc) s0)).cities s0.cities := by
  induction zs generalizing s0 with
  | nil => exact citiesLE_refl _
  | cons z t ih =>
    rw [List.foldl_cons]
    refine citiesLE_trans (ih _) ?_
    split
    · exact applyOngoingDamage_citiesLE _ _ _ _ _
    · exact citiesLE_refl _

theorem tick_citiesLE (toBits : ℝ → ℕ) (landCheck : ℝ → ℝ → Bool) (s : AppState) :
    citiesLE (tick toBits landCheck s).cities s.cities := by
  unfold tick
  dsimp only
  split
  · exact citiesLE_trans (foldOngoing_citiesLE _ _) (applyFireDamage_citiesLE _)
  · exact citiesLE_refl _

/-- **C1**: across every core operation — `launch_nuke` (with its blast
damage), the per-frame `update_explosions` tick, `apply_blast_damage`,
`apply_fire_damage_to_cities` and `apply_ongoing_damage` — every city's
population is pointwise non-increasing (damage is `saturating_sub`, so in
this `ℕ` model it can never go below zero) and the city collection keeps
exactly the same entities (equal length, cities never removed). -/
theorem c1_population_monotone :
    (∀ (landCheck : ℝ → ℝ → Bool) (s : AppState) (col row : ℕ),
      citiesLE (launchNuke landCheck s col row).cities s.cities ∧
        (launchNuke landCheck s col row).cities.length = s.cities.length) ∧
    (∀ (toBits : ℝ → ℕ) (landCheck : ℝ → ℝ → Bool) (s : AppState),
      citiesLE (tick toBits landCheck s).cities s.cities ∧
        (tick toBits landCheck s).cities.length = s.cities.length) ∧
    (∀ (s : AppState) (lon lat radius : ℝ),
      citiesLE (applyBlastDamage s lon lat radius).cities s.cities ∧
        (applyBlastDamage s lon lat radius).cities.length = s.cities.length) ∧
    (∀ (s : AppState),
      citiesLE (applyFireDamage s).cities s.cities ∧
        (applyFireDamage s).cities.length = s.cities.length) ∧
    (∀ (s : AppState) (lon lat radius rate : ℝ),
      citiesLE (applyOngoingDamage s lon lat radius rate).cities s.cities ∧
        (applyOngoingDamage s lon lat radius rate).cities.length = s.cities.length) := by
  refine ⟨fun lc s col row => ?_, fun tb lc s => ?_, fun s lon lat r => ?_,
    fun s => ?_, fun s lon lat r rate => ?_⟩
  · exact ⟨launchNuke_citiesLE lc s col row, (launchNuke_citiesLE lc s col row).length_eq⟩
  · exact ⟨tick_citiesLE tb lc s, (tick_citiesLE tb lc s).length_eq⟩
  · exact ⟨applyBlastDamage_citiesLE s lon lat r, (applyBlastDamage_citiesLE s lon lat r).length_eq⟩
  · exact ⟨applyFireDamage_citiesLE s, (applyFireDamage_citiesLE s).length_eq⟩
  · exact ⟨applyOngoingDamage_citiesLE s lon lat r rate,
      (applyOngoingDamage_citiesLE s lon lat r rate).length_eq⟩

/-! ### C10: the fresh App starts inside its own cooldown -/

theorem launchNuke_noop (landCheck : ℝ → ℝ → Bool) (s : AppState) (col row : ℕ)
    (h : s.frame < s.lastNukeFrame + 15) : launchNuke landCheck s col row = s := by
  unfold launchNuke
  rw [if_pos h]

/-- Neither damage routine touches anything except cities/casualties. -/
theorem foldOngoing_keeps (zs : List Fallout) (s0 : AppState) :
    (zs.foldl (fun acc z =>
      if 0 < z.intensity then
        applyOngoingDamage acc z.lon z.lat z.radius_km ((z.intensity : ℝ) / 10000 * 0.05)
      else acc) s0).proj = s0.proj ∧
    (zs.foldl (fun acc z =>
      if 0 < z.intensity then
        applyOngoingDamage acc z.lon z.lat z.radius_km ((z.intensity : ℝ) / 10000 * 0.05)
      else acc) s0).explosions = s0.explosions ∧
    (zs.foldl (fun acc z =>
      if 0 < z.intensity then
        applyOngoingDamage acc z.lon z.lat z.radius_km ((z.intensity : ℝ) / 10000 * 0.05)
      else acc) s0).fires = s0.fires ∧
    (zs.foldl (fun acc z =>
      if 0 < z.intensity then
        applyOngoingDamage acc z.lon z.lat z.radius_km ((z.intensity : ℝ) / 10000 * 0.05)
      else acc) s0).fallout = s0.fallout ∧
    (zs.foldl (fun acc z =>
      if 0 < z.intensity then
        applyOngoingDamage acc z.lon z.lat z.radius_km ((z.intensity : ℝ) / 10000 * 0.05)
      else acc) s0).frame = s0.frame ∧
    (zs.foldl (fun acc z =>
      if 0 < z.intensity then
        applyOngoingDamage acc z.lon z.lat z.radius_km ((z.intensity : ℝ) / 10000 * 0.05)
      else acc) s0).lastNukeFrame = s0.lastNukeFrame := by
  induction zs generalizing s0 with
  | nil => exact ⟨rfl, rfl, rfl, rfl, rfl, rfl⟩
  | cons z t ih =>
    rw [List.foldl_cons]
    obtain ⟨h1, h2, h3, h4, h5, h6⟩ := ih (if 0 < z.intensity then
      applyOngoingDamage s0 z.lon z.lat z.radius_km ((z.intensity : ℝ) / 10000 * 0.05) else s0)
    refine ⟨?_, ?_, ?_, ?_, ?_, ?_⟩ <;>
      · first
        | (rw [h1]; split <;> rfl)
        | (rw [h2]; split <;> rfl)
        | (rw [h3]; split <;> rfl)
        | (rw [h4]; split <;> rfl)
        | (rw [h5]; split <;> rfl)
        | (rw [h6]; split <;> rfl)

/-- The tick's entity components, frame increment and cooldown
bookkeeping, read off its definition. -/
theorem tick_components (toBits : ℝ → ℕ) (landCheck : ℝ → ℝ → Bool) (s : AppState) :
    (tick toBits landCheck s).frame = (s.frame + 1) % U64 ∧
    (tick toBits landCheck s).lastNukeFrame = s.lastNukeFrame ∧
    (tick toBits landCheck s).explosions = tickExplosions s.explosions ∧
    (tick toBits landCheck s).fallout = tickFallout s.fallout ∧
    (tick toBits landCheck s).fires
      = tickFires toBits landCheck ((s.frame + 1) % U64) s.fires ∧
    (tick toBits landCheck s).proj = (tickMomentum s).1 := by
  unfold tick
  dsimp only
  split
  · next hz =>
    obtain ⟨h1, h2, h3, h4, h5, h6⟩ := foldOngoing_keeps (tickFallout s.fallout)
      (applyFireDamage { s with
        proj := (tickMomentum s).1
        spin := (tickMomentum s).2
        frame := (s.frame + 1) % U64
        explosions := tickExplosions s.explosions
        fires := tickFires toBits landCheck ((s.frame + 1) % U64) s.fires
        fallout := tickFallout s.fallout })
    exact ⟨h5, h6, h2, h4, h3, h1⟩
  · exact ⟨rfl, rfl, rfl, rfl, rfl, rfl⟩

/-- **C10**: `App::new` sets both the frame counter and `last_nuke_frame`
to 0, so for the first 15 frames (`frame < 15`) the cooldown guard
`frame < last_nuke_frame + 15` already holds and `launch_nuke` is a
complete no-op — the state (entities, cities, counters) is returned
unchanged — even though no disaster was ever triggered. -/
theorem c10_initial_cooldown :
    (∀ (landCheck : ℝ → ℝ → Bool) (s : AppState) (col row : ℕ),
      s.frame < s.lastNukeFrame + 15 → launchNuke landCheck s col row = s) ∧
    (∀ (toBits : ℝ → ℕ) (landCheck : ℝ → ℝ → Bool) (w h k : ℕ), k ≤ 14 →
      ((tick toBits landCheck)^[k] (freshApp w h)).frame = k ∧
      ((tick toBits landCheck)^[k] (freshApp w h)).lastNukeFrame = 0 ∧
      ∀ col row,
        launchNuke landCheck ((tick toBits landCheck)^[k] (freshApp w h)) col row
          = (tick toBits landCheck)^[k] (freshApp w h)) := by
  have hnoop : ∀ (landCheck : ℝ → ℝ → Bool) (s : AppState) (col row : ℕ),
      s.frame < s.lastNukeFrame + 15 → launchNuke landCheck s col row = s := by
    intro lc s col row h
    unfold launchNuke
    rw [if_pos h]
  refine ⟨hnoop, ?_⟩
  intro tb lc w h k hk
  have hcount : ∀ j : ℕ, j ≤ 14 →
      ((tick tb lc)^[j] (freshApp w h)).frame = j ∧
      ((tick tb lc)^[j] (freshApp w h)).lastNukeFrame = 0 := by
    intro j
    induction j with
    | zero => intro _; exact ⟨rfl, rfl⟩
    | succ n ihn =>
      intro hj
      obtain ⟨hf, hl⟩ := ihn (by omega)
      rw [Function.iterate_succ_apply']
      obtain ⟨h1, h2, _, _, _, _⟩ := tick_components tb lc ((tick tb lc)^[n] (freshApp w h))
      refine ⟨?_, ?_⟩
      · rw [h1, hf]
        have : n + 1 < U64 := by
          unfold U64
          omega
        exact Nat.mod_eq_of_lt this
      · rw [h2, hl]
  obtain ⟨hf, hl⟩ := hcount k hk
  refine ⟨hf, hl, fun col row => ?_⟩
  apply hnoop
  rw [hf, hl]
  omega

/-! ### C4: fire-spread properties -/

/-- **C4**: whenever a fire's (post-decay) intensity is above the spread
threshold 60 and the hash-derived probabilistic check passes, the spread
step creates between 1 and 3 new fire candidates (the code spawns 1 or 2),
each with intensity strictly below the spreading fire's current intensity;
and the per-fire tick update (decay) never increases any existing fire's
intensity — spread events only create new entities. -/
theorem c4_spread_properties :
    (∀ (toBits : ℝ → ℕ) (frame : ℕ) (f : Fire),
      60 < f.intensity →
      (0.85 : ℚ) < randSimple (hash3 (toBits (f.lon * 10000)) (toBits (f.lat * 10000)) frame) →
      1 ≤ (spreadCandidates toBits frame f).length ∧
      (spreadCandidates toBits frame f).length ≤ 3 ∧
      ∀ c ∈ spreadCandidates toBits frame f, c.intensity < f.intensity) ∧
    (∀ (frame : ℕ) (f : Fire), (decayFire frame f).intensity ≤ f.intensity) := by
  constructor
  · intro toBits frame f h1 h2
    unfold spreadCandidates
    rw [if_pos h1]
    dsimp only
    rw [if_pos h2]
    have hmem : ∀ (n : ℕ), ∀ c ∈ (List.range n).map (fun sIdx =>
        let seed := hash3 (toBits (f.lon * 10000)) (toBits (f.lat * 10000)) (wadd frame sIdx)
        let spreadDist := (0.03 : ℝ) + ((randSimple seed : ℚ) : ℝ) * 0.15
        let angle := ((randSimple (wmul seed 31337) : ℚ) : ℝ) * (2 * π)
        ({ lon := f.lon + spreadDist * Real.cos angle
           lat := f.lat + spreadDist * Real.sin angle
           intensity := f.intensity - 10 } : Fire)),
        c.intensity < f.intensity := by
      intro n c hc
      simp only [List.mem_map, List.mem_range] at hc
      obtain ⟨i, _, rfl⟩ := hc
      dsimp only
      omega
    split
    · exact ⟨by simp, by simp, hmem 2⟩
    · exact ⟨by simp, by simp, hmem 1⟩
  · intro frame f
    unfold decayFire
    split
    · exact Nat.sub_le _ _
    · exact le_refl _

/-- Witness for `c4_spread_properties`: with the bit extractor fixed to 0,
frame 8 passes the spread check (`rand ≈ 0.947 > 0.85`) for a fire of
intensity 100. -/
theorem c4_spread_properties_witness :
    (60 < 100 ∧ (0.85 : ℚ) < randSimple (hash3 0 0 8)) ∧
    (1 ≤ (spreadCandidates (fun _ => 0) 8 ⟨0, 0, 100⟩).length ∧
      (spreadCandidates (fun _ => 0) 8 ⟨0, 0, 100⟩).length ≤ 3 ∧
      ∀ c ∈ spreadCandidates (fun _ => 0) 8 ⟨0, 0, 100⟩, c.intensity < 100) ∧
    (decayFire 8 ⟨0, 0, 100⟩).intensity ≤ 100 := by
  have hb : randBits (hash3 0 0 8) = 8533882533254377 := by decide
  have hr : (0.85 : ℚ) < randSimple (hash3 0 0 8) := by
    unfold randSimple
    rw [hb]
    norm_num
  exact ⟨⟨by norm_num, hr⟩,
    c4_spread_properties.1 (fun _ => 0) 8 ⟨0, 0, 100⟩ (by norm_num) hr,
    c4_spread_properties.2 8 ⟨0, 0, 100⟩⟩

/-! ### C2: blast radius and target fire count -/

theorem targetFires_750 : targetFires 750 = 20000 := by
  unfold targetFires natTrunc
  have harg : π * 750 * 750 / 5 = 112500 * π := by ring
  rw [harg]
  have hpi := Real.pi_gt_3141592
  have hfl : (19800 : ℤ) ≤ ⌊(112500 : ℝ) * π⌋ := by
    apply Int.le_floor.mpr
    push_cast
    nlinarith
  rw [min_eq_right (by omega)]

theorem targetFires_120 : targetFires 120 = 9247 := by
  unfold targetFires natTrunc
  have harg : π * 120 * 120 / 5 = 2880 * π := by ring
  rw [harg]
  have hpi1 := Real.pi_gt_3141592
  have hpi2 := Real.pi_lt_3141593
  have hfl : ⌊(2880 : ℝ) * π⌋ = 9047 := by
    rw [Int.floor_eq_iff]
    constructor
    · push_cast
      nlinarith
    · push_cast
      nlinarith
  rw [hfl]
  omega

/-- **C2**: every successful `launch_nuke` pushes exactly one explosion
whose blast radius is `50 + 700 / effective_zoom`, and spawns fires
targeting `min(20000, ⌊π r² / 5⌋ + 200)`; numerically, zoom 1 gives
radius 750 km with the capped target 20000, and zoom 10 gives radius
120 km with the uncapped target 9247 (the claim's "≈ 9248"). -/
theorem c2_blast_radius_and_target (landCheck : ℝ → ℝ → Bool) (s : AppState)
    (col row : ℕ) (q : ℝ × ℝ)
    (hcool : s.lastNukeFrame + 15 ≤ s.frame)
    (hunproj : s.proj.unproject (((col - 1 : ℕ) : ℝ) * 2) (((row - 1 : ℕ) : ℝ) * 4)
      = some q) :
    ((launchNuke landCheck s col row).explosions
      = s.explosions ++ [⟨q.1, q.2, 0, 50 + 700 / s.proj.effectiveZoom⟩]) ∧
    ((launchNuke landCheck s col row).fires
      = s.fires ++ spawnFires landCheck q.1 q.2 (50 + 700 / s.proj.effectiveZoom)
          (max (Real.cos (q.2 * π / 180)) 0.1)
          (targetFires (50 + 700 / s.proj.effectiveZoom))
          (2 * targetFires (50 + 700 / s.proj.effectiveZoom)) 0 0) ∧
    (∀ r : ℝ, targetFires r = min (natTrunc (π * r * r / 5) + 200) 20000) ∧
    (50 + 700 / (1 : ℝ) = 750 ∧ targetFires 750 = 20000) ∧
    (50 + 700 / (10 : ℝ) = 120 ∧ targetFires 120 = 9247 ∧ 9248 - 9247 ≤ 1) := by
  unfold launchNuke
  rw [if_neg (not_lt.mpr hcool), hunproj]
  exact ⟨rfl, rfl, fun r => rfl, ⟨by norm_num, targetFires_750⟩,
    ⟨by norm_num, targetFires_120, by norm_num⟩⟩

/-- Concrete state for the C2 witness: a fresh App advanced to frame 20. -/
noncomputable def c2State : AppState := { freshApp 100 100 with frame := 20 }

/-- The geographic point under the cursor for the C2 witness. -/
noncomputable def c2Point : ℝ × ℝ :=
  (Viewport.world ((100 - 2) * 2) ((100 - 3) * 4)).unproject
    (((5 - 1 : ℕ) : ℝ) * 2) (((5 - 1 : ℕ) : ℝ) * 4)

/-- Witness for `c2_blast_radius_and_target` at a fresh App on frame 20,
cursor (5,5). -/
theorem c2_blast_radius_and_target_witness :
    (c2State.lastNukeFrame + 15 ≤ c2State.frame) ∧
    ((launchNuke (fun _ _ => true) c2State 5 5).explosions
      = c2State.explosions ++ [⟨c2Point.1, c2Point.2, 0, 50 + 700 / c2State.proj.effectiveZoom⟩]) ∧
    targetFires 750 = 20000 ∧ targetFires 120 = 9247 := by
  have hcool : c2State.lastNukeFrame + 15 ≤ c2State.frame := by
    show (0 : ℕ) + 15 ≤ 20
    norm_num
  have happ := c2_blast_radius_and_target (fun _ _ => true) c2State 5 5 c2Point hcool rfl
  exact ⟨hcool, happ.1, happ.2.2.2.1.2, happ.2.2.2.2.2.1⟩

/-- Witness for `c10_initial_cooldown`: concrete instantiation — after 3
ticks of a fresh 100×100 App, frame is 3 and `launch_nuke` at cell (5,5)
is a no-op. -/
theorem c10_initial_cooldown_witness :
    ((tick (fun _ => 0) (fun _ _ => true))^[3] (freshApp 100 100)).frame = 3 ∧
    launchNuke (fun _ _ => true) ((tick (fun _ => 0) (fun _ _ => true))^[3] (freshApp 100 100)) 5 5
      = (tick (fun _ => 0) (fun _ _ => true))^[3] (freshApp 100 100) :=
  ⟨(c10_initial_cooldown.2 (fun _ => 0) (fun _ _ => true) 100 100 3 (by norm_num)).1,
   (c10_initial_cooldown.2 (fun _ => 0) (fun _ _ => true) 100 100 3 (by norm_num)).2.2 5 5⟩

/-! ### C3: the cooldown prevents double creation -/

theorem launchNuke_components (lc : ℝ → ℝ → Bool) (s : AppState) (col row : ℕ) (q : ℝ × ℝ)
    (hcool : s.lastNukeFrame + 15 ≤ s.frame)
    (hunp : s.proj.unproject (((col - 1 : ℕ) : ℝ) * 2) (((row - 1 : ℕ) : ℝ) * 4) = some q) :
    (launchNuke lc s col row).explosions
      = s.explosions ++ [⟨q.1, q.2, 0, 50 + 700 / s.proj.effectiveZoom⟩] ∧
    (launchNuke lc s col row).fallout
      = s.fallout ++ [⟨q.1, q.2, (50 + 700 / s.proj.effectiveZoom) * 2, 1000⟩] ∧
    (launchNuke lc s col row).fires
      = s.fires ++ spawnFires lc q.1 q.2 (50 + 700 / s.proj.effectiveZoom)
          (max (Real.cos (q.2 * π / 180)) 0.1)
          (targetFires (50 + 700 / s.proj.effectiveZoom))
          (2 * targetFires (50 + 700 / s.proj.effectiveZoom)) 0 0 ∧
    (launchNuke lc s col row).frame = s.frame ∧
    (launchNuke lc s col row).lastNukeFrame = s.frame ∧
    (launchNuke lc s col row).proj = s.proj := by
  unfold launchNuke
  rw [if_neg (not_lt.mpr hcool), hunp]
  exact ⟨rfl, rfl, rfl, rfl, rfl, rfl⟩

theorem tickExplosions_single (lon lat r : ℝ) (j : ℕ) (hj : j + 1 < 60) :
    tickExplosions [⟨lon, lat, j, r⟩] = [⟨lon, lat, j + 1, r⟩] := by
  unfold tickExplosions
  have hmod : (j + 1) % 256 = j + 1 := Nat.mod_eq_of_lt (by omega)
  simp [hmod, hj]

theorem tickFallout_single (lon lat r : ℝ) (n : ℕ) (hn : 1 < n) :
    tickFallout [⟨lon, lat, r, n⟩] = [⟨lon, lat, r, n - 1⟩] := by
  unfold tickFallout
  simp [show 0 < n - 1 by omega]

theorem ticks_frame_lastNuke (tb : ℝ → ℕ) (lc : ℝ → ℝ → Bool) (k : ℕ) :
    ∀ s : AppState, s.frame + k < U64 →
      ((tick tb lc)^[k] s).frame = s.frame + k ∧
      ((tick tb lc)^[k] s).lastNukeFrame = s.lastNukeFrame := by
  induction k with
  | zero => intro s _; exact ⟨rfl, rfl⟩
  | succ m ih =>
    intro s hs
    rw [Function.iterate_succ_apply]
    obtain ⟨h1, h2, _, _, _, _⟩ := tick_components tb lc s
    have hmod : (s.frame + 1) % U64 = s.frame + 1 := Nat.mod_eq_of_lt (by omega)
    obtain ⟨ihf, ihl⟩ := ih (tick tb lc s) (by rw [h1, hmod]; omega)
    refine ⟨?_, ?_⟩
    · rw [ihf, h1, hmod]
      omega
    · rw [ihl, h2]

theorem ticks_single_entities (tb : ℝ → ℕ) (lc : ℝ → ℝ → Bool) (k : ℕ) :
    ∀ (s : AppState) (lon lat r zlon zlat zr : ℝ) (j n : ℕ),
      s.explosions = [⟨lon, lat, j, r⟩] → s.fallout = [⟨zlon, zlat, zr, n⟩] →
      j + k < 60 → k < n →
      ((tick tb lc)^[k] s).explosions = [⟨lon, lat, j + k, r⟩] ∧
      ((tick tb lc)^[k] s).fallout = [⟨zlon, zlat, zr, n - k⟩] := by
  induction k with
  | zero => intro s lon lat r zlon zlat zr j n he hz _ _; simpa using ⟨he, hz⟩
  | succ m ih =>
    intro s lon lat r zlon zlat zr j n he hz hj hn
    rw [Function.iterate_succ_apply]
    obtain ⟨_, _, h3, h4, _, _⟩ := tick_components tb lc s
    have he' : (tick tb lc s).explosions = [⟨lon, lat, j + 1, r⟩] := by
      rw [h3, he, tickExplosions_single lon lat r j (by omega)]
    have hz' : (tick tb lc s).fallout = [⟨zlon, zlat, zr, n - 1⟩] := by
      rw [h4, hz, tickFallout_single zlon zlat zr n (by omega)]
    obtain ⟨ihe, ihz⟩ := ih (tick tb lc s) lon lat r zlon zlat zr (j + 1) (n - 1) he' hz'
      (by omega) (by omega)
    refine ⟨?_, ?_⟩
    · rw [ihe, show j + 1 + m = j + (m + 1) by omega]
    · rw [ihz, show n - 1 - m = n - (m + 1) by omega]

/-- **C3 (amended)**: from any state with no live explosion or fallout
whose first call succeeds (cooldown elapsed, point unprojectable — always
true on the Mercator variant), a second `launch_nuke` at the same screen
point within the 15-frame cooldown window is a no-op, so the two calls
create exactly one Explosion and one Fallout in total.  (If the first
call is itself suppressed — e.g. on a fresh App, see the counterexample —
the two calls create zero, not one, so the unrestricted claim is "at most
one".) -/
theorem c3_single_creation (toBits : ℝ → ℕ) (landCheck : ℝ → ℝ → Bool) (vp : Viewport)
    (cities : List City) (fg fgf : ℕ → ℕ) (cas frame last col row k : ℕ)
    (hcool : last + 15 ≤ frame) (hk : k < 15) (hfr : frame + k < U64) :
    (launchNuke landCheck ((tick toBits landCheck)^[k] (launchNuke landCheck
        ⟨Proj.mercator vp, cities, [], [], fg, fgf, [], cas, frame, last, none, (0, 0)⟩
        col row)) col row).explosions.length = 1 ∧
    (launchNuke landCheck ((tick toBits landCheck)^[k] (launchNuke landCheck
        ⟨Proj.mercator vp, cities, [], [], fg, fgf, [], cas, frame, last, none, (0, 0)⟩
        col row)) col row).fallout.length = 1 := by
  set s0 : AppState :=
    ⟨Proj.mercator vp, cities, [], [], fg, fgf, [], cas, frame, last, none, (0, 0)⟩ with hs0
  obtain ⟨hex, hfo, _, hfr1, hln1, _⟩ := launchNuke_components landCheck s0 col row
    ((vp.unproject (((col - 1 : ℕ) : ℝ) * 2) (((row - 1 : ℕ) : ℝ) * 4)))
    hcool rfl
  set s1 := launchNuke landCheck s0 col row with hs1def
  rw [show s0.explosions = ([] : List Explosion) from rfl, List.nil_append] at hex
  rw [show s0.fallout = ([] : List Fallout) from rfl, List.nil_append] at hfo
  obtain ⟨h2e, h2z⟩ := ticks_single_entities toBits landCheck k s1 _ _ _ _ _ _ 0 1000
    hex hfo (by omega) (by omega)
  have hfr2 : ((tick toBits landCheck)^[k] s1).frame = frame + k := by
    obtain ⟨hf, _⟩ := ticks_frame_lastNuke toBits landCheck k s1 (by rw [hfr1]; exact hfr)
    rw [hf, hfr1]
  have hln2 : ((tick toBits landCheck)^[k] s1).lastNukeFrame = frame := by
    obtain ⟨_, hl⟩ := ticks_frame_lastNuke toBits landCheck k s1 (by rw [hfr1]; exact hfr)
    rw [hl, hln1]
  have hnoop : launchNuke landCheck ((tick toBits landCheck)^[k] s1) col row
      = (tick toBits landCheck)^[k] s1 := by
    unfold launchNuke
    rw [if_pos (by rw [hfr2, hln2]; omega)]
  rw [hnoop, h2e, h2z]
  exact ⟨rfl, rfl⟩

/-- Witness for `c3_single_creation`: fresh-App-like state at frame 15,
5 ticks between the two launches. -/
theorem c3_single_creation_witness :
    (launchNuke (fun _ _ => false) ((tick (fun _ => 0) (fun _ _ => false))^[5]
        (launchNuke (fun _ _ => false)
          ⟨Proj.mercator (Viewport.world 196 388), [], [], [], fun _ => 0, fun _ => 0, [],
            0, 15, 0, none, (0, 0)⟩ 5 5)) 5 5).explosions.length = 1 ∧
    (launchNuke (fun _ _ => false) ((tick (fun _ => 0) (fun _ _ => false))^[5]
        (launchNuke (fun _ _ => false)
          ⟨Proj.mercator (Viewport.world 196 388), [], [], [], fun _ => 0, fun _ => 0, [],
            0, 15, 0, none, (0, 0)⟩ 5 5)) 5 5).fallout.length = 1 :=
  c3_single_creation (fun _ => 0) (fun _ _ => false) (Viewport.world 196 388) [] (fun _ => 0)
    (fun _ => 0) 0 15 0 5 5 5 (by norm_num) (by norm_num) (by norm_num [U64])

/-- **C3 counterexample**: on a fresh App (frame 0, `last_nuke_frame` 0),
two immediate `launch_nuke` calls at the same point create zero
Explosions and zero Fallout — not exactly one — because the first call is
itself inside the initial cooldown window. -/
theorem c3_counterexample :
    (launchNuke (fun _ _ => true)
      (launchNuke (fun _ _ => true) (freshApp 100 100) 5 5) 5 5).explosions.length = 0 ∧
    (launchNuke (fun _ _ => true)
      (launchNuke (fun _ _ => true) (freshApp 100 100) 5 5) 5 5).fallout.length = 0 := by
  have h1 : launchNuke (fun _ _ => true) (freshApp 100 100) 5 5 = freshApp 100 100 := by
    unfold launchNuke
    rw [if_pos (by show (0 : ℕ) < 0 + 15; norm_num)]
  rw [h1, h1]
  exact ⟨rfl, rfl⟩

/-! ### C5: the 30000-fire cap binds only spread admission, not `launch_nuke` -/

/-- **C5 (amended)**: the per-frame update (`update_explosions`) respects
the cap — a tick never raises the fire count above
`max (current count) 30000`, because new spread fires are admitted only up
to `30000 - fires.len()`.  (`launch_nuke`, by contrast, appends up to
20000 spawned fires with no cap check, so the global "never exceeds
30000" reading is false — see the counterexample.) -/
theorem c5_tick_cap (toBits : ℝ → ℕ) (landCheck : ℝ → ℝ → Bool) (s : AppState) :
    (tick toBits landCheck s).fires.length ≤ max s.fires.length 30000 := by
  obtain ⟨_, _, _, _, h5, _⟩ := tick_components toBits landCheck s
  rw [h5]
  unfold tickFires
  simp only [List.length_append, List.length_take]
  have hd : ((s.fires.map (decayFire ((s.frame + 1) % U64))).filter
      (fun f => 0 < f.intensity)).length ≤ s.fires.length := by
    calc ((s.fires.map (decayFire ((s.frame + 1) % U64))).filter
          (fun f => 0 < f.intensity)).length
        ≤ (s.fires.map (decayFire ((s.frame + 1) % U64))).length :=
          List.length_filter_le _ _
      _ = s.fires.length := List.length_map _ _
  omega

/-- The spawn angle subexpression of `launch_nuke`'s fire loop. -/
noncomputable def spawnAngle (attempt : ℕ) : ℝ :=
  ((randSimple (wmul attempt 7919) : ℚ) : ℝ) * (2 * π)

/-- The spawn distance subexpression of `launch_nuke`'s fire loop. -/
noncomputable def spawnDist (radius : ℝ) (attempt : ℕ) : ℝ :=
  radius * Real.sqrt ((randSimple (wmul attempt 6547) : ℚ) : ℝ)

theorem spawnFires_zero (landCheck : ℝ → ℝ → Bool) (lon lat radius cosLat : ℝ)
    (target spawned attempt : ℕ) :
    spawnFires landCheck lon lat radius cosLat target 0 spawned attempt = [] := rfl

theorem spawnFires_succ (landCheck : ℝ → ℝ → Bool) (lon lat radius cosLat : ℝ)
    (target fuel spawned attempt : ℕ) :
    spawnFires landCheck lon lat radius cosLat target (fuel + 1) spawned attempt
      = if spawned < target then
          if landCheck
              (lon + spawnDist radius attempt * Real.cos (spawnAngle attempt) / (111 * cosLat))
              (lat + spawnDist radius attempt * Real.sin (spawnAngle attempt) / 111) then
            { lon := lon + spawnDist radius attempt * Real.cos (spawnAngle attempt)
                / (111 * cosLat),
              lat := lat + spawnDist radius attempt * Real.sin (spawnAngle attempt) / 111,
              intensity := natTrunc (min (200 + (1 - spawnDist radius attempt / radius) * 55
                + ((randSimple (wadd (attempt + 1) 1000) : ℚ) : ℝ) * 30) 255) }
              :: spawnFires landCheck lon lat radius cosLat target fuel (spawned + 1)
                  (attempt + 1)
          else spawnFires landCheck lon lat radius cosLat target fuel spawned (attempt + 1)
        else [] := rfl

/-- With an all-land check every attempt spawns, so the loop produces
exactly `min (target - spawned) fuel` fires. -/
theorem spawnFires_allLand_length (lon lat radius cosLat : ℝ) (target : ℕ) :
    ∀ fuel spawned attempt : ℕ,
      (spawnFires (fun _ _ => true) lon lat radius cosLat target fuel spawned attempt).length
        = min (target - spawned) fuel := by
  intro fuel
  induction fuel with
  | zero =>
    intro spawned attempt
    rw [spawnFires_zero]
    simp
  | succ n ih =>
    intro spawned attempt
    rw [spawnFires_succ]
    by_cases h : spawned < target
    · rw [if_pos h]
      simp [ih]
      omega
    · rw [if_neg h]
      simp
      omega

theorem le_natTrunc (n : ℕ) (x : ℝ) (h : (n : ℝ) ≤ x) : n ≤ natTrunc x := by
  unfold natTrunc
  have h2 : (n : ℤ) ≤ ⌊x⌋ := Int.le_floor.mpr (by exact_mod_cast h)
  omega

/-- Every fire spawned by `launch_nuke`'s loop has intensity at least 200:
the intensity formula is `min (200 + nonneg + nonneg) 255` truncated. -/
theorem spawnFires_intensity (landCheck : ℝ → ℝ → Bool) (lon lat radius cosLat : ℝ)
    (hr : 0 < radius) (target : ℕ) :
    ∀ (fuel spawned attempt : ℕ) (f : Fire),
      f ∈ spawnFires landCheck lon lat radius cosLat target fuel spawned attempt →
      200 ≤ f.intensity := by
  intro fuel
  induction fuel with
  | zero =>
    intro spawned attempt f hf
    rw [spawnFires_zero] at hf
    simp at hf
  | succ n ih =>
    intro spawned attempt f hf
    rw [spawnFires_succ] at hf
    split at hf
    · split at hf
      · rcases List.mem_cons.mp hf with rfl | hf'
        · show 200 ≤ natTrunc (min (200 + (1 - spawnDist radius attempt / radius) * 55
            + ((randSimple (wadd (attempt + 1) 1000) : ℚ) : ℝ) * 30) 255)
          apply le_natTrunc
          have hu1 : ((randSimple (wmul attempt 6547) : ℚ) : ℝ) ≤ 1 := by
            exact_mod_cast (randSimple_lt_one (wmul attempt 6547)).le
          have hs1 : Real.sqrt ((randSimple (wmul attempt 6547) : ℚ) : ℝ) ≤ 1 :=
            Real.sqrt_le_one.mpr hu1
          have hs0 : 0 ≤ Real.sqrt ((randSimple (wmul attempt 6547) : ℚ) : ℝ) :=
            Real.sqrt_nonneg _
          have hd : spawnDist radius attempt / radius
              = Real.sqrt ((randSimple (wmul attempt 6547) : ℚ) : ℝ) := by
            unfold spawnDist
            exact mul_div_cancel_left₀ _ (ne_of_gt hr)
          have hv : (0 : ℝ) ≤ ((randSimple (wadd (attempt + 1) 1000) : ℚ) : ℝ) := by
            exact_mod_cast randSimple_nonneg (wadd (attempt + 1) 1000)
          rw [hd]
          push_cast
          refine le_min ?_ (by norm_num)
          have h1 : (0 : ℝ) ≤ (1 - Real.sqrt ((randSimple (wmul attempt 6547) : ℚ) : ℝ)) * 55 := by
            nlinarith
          have h2 : (0 : ℝ) ≤ ((randSimple (wadd (attempt + 1) 1000) : ℚ) : ℝ) * 30 := by
            nlinarith
          linarith
        · exact ih _ _ f hf'
      · exact ih _ _ f hf
    · simp at hf

/-- With an all-water land check spread candidates are all rejected, so a
fire tick is just decay-and-retain. -/
theorem tickFires_noSpread_eq (tb : ℝ → ℕ) (frame : ℕ) (fires : List Fire) :
    tickFires tb (fun _ _ => false) frame fires
      = (fires.map (decayFire frame)).filter (fun f => 0 < f.intensity) := by
  unfold tickFires
  simp

theorem foldOngoing_mouse_spin (zs : List Fallout) (s0 : AppState) :
    (zs.foldl (fun acc z =>
      if 0 < z.intensity then
        applyOngoingDamage acc z.lon z.lat z.radius_km ((z.intensity : ℝ) / 10000 * 0.05)
      else acc) s0).lastMouse = s0.lastMouse ∧
    (zs.foldl (fun acc z =>
      if 0 < z.intensity then
        applyOngoingDamage acc z.lon z.lat z.radius_km ((z.intensity : ℝ) / 10000 * 0.05)
      else acc) s0).spin = s0.spin := by
  induction zs generalizing s0 with
  | nil => exact ⟨rfl, rfl⟩
  | cons z t ih =>
    rw [List.foldl_cons]
    obtain ⟨h1, h2⟩ := ih (if 0 < z.intensity then
      applyOngoingDamage s0 z.lon z.lat z.radius_km ((z.intensity : ℝ) / 10000 * 0.05) else s0)
    refine ⟨?_, ?_⟩
    · rw [h1]; split <;> rfl
    · rw [h2]; split <;> rfl

theorem tick_mouse_spin (toBits : ℝ → ℕ) (landCheck : ℝ → ℝ → Bool) (s : AppState) :
    (tick toBits landCheck s).lastMouse = s.lastMouse ∧
    (tick toBits landCheck s).spin = (tickMomentum s).2 := by
  unfold tick
  dsimp only
  split
  · obtain ⟨h1, h2⟩ := foldOngoing_mouse_spin (tickFallout s.fallout)
      (applyFireDamage { s with
        proj := (tickMomentum s).1
        spin := (tickMomentum s).2
        frame := (s.frame + 1) % U64
        explosions := tickExplosions s.explosions
        fires := tickFires toBits landCheck ((s.frame + 1) % U64) s.fires
        fallout := tickFallout s.fallout })
    exact ⟨h1, h2⟩
  · exact ⟨rfl, rfl⟩

theorem tickMomentum_quiet (s : AppState) (hlm : s.lastMouse = none) (hsp : s.spin = (0, 0)) :
    tickMomentum s = (s.proj, s.spin) := by
  unfold tickMomentum
  rw [if_pos hlm, if_neg]
  rw [hsp]
  norm_num

/-- A "quiet" tick: no mouse drag, no spin, all-water land check, all
fires hot enough to survive decay — the tick then fixes the camera and
the fire count, and decays intensities by at most 1. -/
theorem tick_quiet (tb : ℝ → ℕ) (s : AppState) (m : ℕ)
    (hlm : s.lastMouse = none) (hsp : s.spin = (0, 0))
    (hm : ∀ f ∈ s.fires, m ≤ f.intensity) (hm2 : 2 ≤ m) :
    (tick tb (fun _ _ => false) s).proj = s.proj ∧
    (tick tb (fun _ _ => false) s).lastMouse = none ∧
    (tick tb (fun _ _ => false) s).spin = (0, 0) ∧
    (tick tb (fun _ _ => false) s).fires.length = s.fires.length ∧
    (∀ f ∈ (tick tb (fun _ _ => false) s).fires, m - 1 ≤ f.intensity) ∧
    (tick tb (fun _ _ => false) s).frame = (s.frame + 1) % U64 ∧
    (tick tb (fun _ _ => false) s).lastNukeFrame = s.lastNukeFrame := by
  obtain ⟨h1, h2, _, _, h5, h6⟩ := tick_components tb (fun _ _ => false) s
  obtain ⟨hmou, hspin⟩ := tick_mouse_spin tb (fun _ _ => false) s
  have hq := tickMomentum_quiet s hlm hsp
  have hdec : ∀ f ∈ s.fires.map (decayFire ((s.frame + 1) % U64)), m - 1 ≤ f.intensity := by
    intro f hf
    obtain ⟨g, hg, rfl⟩ := List.mem_map.mp hf
    have hgm := hm g hg
    unfold decayFire
    split
    · dsimp only
      omega
    · omega
  have hfil : (s.fires.map (decayFire ((s.frame + 1) % U64))).filter
      (fun f => 0 < f.intensity) = s.fires.map (decayFire ((s.frame + 1) % U64)) := by
    apply List.filter_eq_self.mpr
    intro f hf
    exact decide_eq_true (by have := hdec f hf; omega)
  refine ⟨?_, ?_, ?_, ?_, ?_, h1, h2⟩
  · rw [h6, hq]
  · rw [hmou, hlm]
  · rw [hspin, hq, hsp]
  · rw [h5, tickFires_noSpread_eq, hfil, List.length_map]
  · intro f hf
    rw [h5, tickFires_noSpread_eq, hfil] at hf
    exact hdec f hf

/-- Iterated quiet ticks preserve camera, fire count and cooldown
bookkeeping while advancing the frame counter. -/
theorem ticks_quiet (tb : ℝ → ℕ) (k : ℕ) :
    ∀ (s : AppState) (m : ℕ), s.lastMouse = none → s.spin = (0, 0) →
      (∀ f ∈ s.fires, m ≤ f.intensity) → k + 2 ≤ m → s.frame + k < U64 →
      ((tick tb (fun _ _ => false))^[k] s).proj = s.proj ∧
      ((tick tb (fun _ _ => false))^[k] s).fires.length = s.fires.length ∧
      ((tick tb (fun _ _ => false))^[k] s).frame = s.frame + k ∧
      ((tick tb (fun _ _ => false))^[k] s).lastNukeFrame = s.lastNukeFrame := by
  induction k with
  | zero =>
    intro s m _ _ _ _ _
    exact ⟨rfl, rfl, rfl, rfl⟩
  | succ n ih =>
    intro s m hlm hsp hm hm2 hfr
    rw [Function.iterate_succ_apply]
    obtain ⟨hproj, hmou, hspin, hlen, hint, hfrm, hlnf⟩ :=
      tick_quiet tb s m hlm hsp hm (by omega)
    have hfrm' : (tick tb (fun _ _ => false) s).frame = s.frame + 1 := by
      rw [hfrm]
      exact Nat.mod_eq_of_lt (by omega)
    obtain ⟨i1, i2, i3, i4⟩ := ih (tick tb (fun _ _ => false) s) (m - 1) hmou hspin hint
      (by omega) (by rw [hfrm']; omega)
    refine ⟨?_, ?_, ?_, ?_⟩
    · rw [i1, hproj]
    · rw [i2, hlen]
    · rw [i3, hfrm']
      omega
    · rw [i4, hlnf]

theorem launchNuke_mouse_spin (lc : ℝ → ℝ → Bool) (s : AppState) (col row : ℕ) :
    (launchNuke lc s col row).lastMouse = s.lastMouse ∧
    (launchNuke lc s col row).spin = s.spin := by
  unfold launchNuke
  split
  · exact ⟨rfl, rfl⟩
  · split
    · exact ⟨rfl, rfl⟩
    · exact ⟨rfl, rfl⟩

/-- An App state past the initial cooldown (frame 15) with the fresh
100×100 world camera and no entities. -/
noncomputable def c5Start : AppState :=
  ⟨Proj.mercator (Viewport.world 196 388), [], [], [], fun _ => 0, fun _ => 0, [], 0, 15, 0,
    none, (0, 0)⟩

/-- **C5 counterexample**: over an all-land map at whole-world zoom
(blast radius 750, fire target 20000), a nuke at cell (5,5), 15 quiet
ticks (cooldown), and a second nuke at the same cell leave 40000 fires —
the collection exceeds 30000, because `launch_nuke` appends its spawned
fires without consulting the cap. -/
theorem c5_counterexample :
    30000 < (launchNuke (fun _ _ => true)
      ((tick (fun _ => 0) (fun _ _ => false))^[15]
        (launchNuke (fun _ _ => true) c5Start 5 5)) 5 5).fires.length := by
  have heff0 : Proj.effectiveZoom c5Start.proj = 1 := rfl
  have hrad0 : (50 + 700 / Proj.effectiveZoom c5Start.proj : ℝ) = 750 := by
    rw [heff0]
    norm_num
  obtain ⟨_, _, hfire1, hfr1, hln1, hproj1⟩ := launchNuke_components (fun _ _ => true) c5Start 5 5
    ((Viewport.world 196 388).unproject (((5 - 1 : ℕ) : ℝ) * 2) (((5 - 1 : ℕ) : ℝ) * 4))
    (by show (0 : ℕ) + 15 ≤ 15; norm_num) rfl
  set s1 := launchNuke (fun _ _ => true) c5Start 5 5 with hs1
  have hlen1 : s1.fires.length = 20000 := by
    rw [hfire1, show c5Start.fires = ([] : List Fire) from rfl, List.nil_append,
      spawnFires_allLand_length, hrad0, targetFires_750]
    omega
  have hr0 : (0 : ℝ) < 50 + 700 / Proj.effectiveZoom c5Start.proj := by
    rw [hrad0]
    norm_num
  have hint1 : ∀ f ∈ s1.fires, 200 ≤ f.intensity := by
    intro f hf
    rw [hfire1, show c5Start.fires = ([] : List Fire) from rfl, List.nil_append] at hf
    exact spawnFires_intensity _ _ _ _ _ hr0 _ _ _ _ f hf
  obtain ⟨hmou1, hspin1⟩ := launchNuke_mouse_spin (fun _ _ => true) c5Start 5 5
  obtain ⟨hproj2, hlen2, hfr2, hln2⟩ := ticks_quiet (fun _ => 0) 15 s1 200
    (hmou1.trans rfl) (hspin1.trans rfl) hint1 (by norm_num)
    (by rw [hfr1]; show (15 : ℕ) + 15 < U64; norm_num [U64])
  set s2 := (tick (fun _ => 0) (fun _ _ => false))^[15] s1 with hs2
  have heff2 : Proj.effectiveZoom s2.proj = 1 := by
    rw [hproj2, hproj1]
    exact heff0
  have hrad2 : (50 + 700 / Proj.effectiveZoom s2.proj : ℝ) = 750 := by
    rw [heff2]
    norm_num
  have hunp2 : s2.proj.unproject (((5 - 1 : ℕ) : ℝ) * 2) (((5 - 1 : ℕ) : ℝ) * 4)
      = some ((Viewport.world 196 388).unproject (((5 - 1 : ℕ) : ℝ) * 2)
          (((5 - 1 : ℕ) : ℝ) * 4)) := by
    rw [hproj2, hproj1]
    rfl
  obtain ⟨_, _, hfire3, _, _, _⟩ := launchNuke_components (fun _ _ => true) s2 5 5 _
    (by rw [hln2, hln1, hfr2, hfr1]) hunp2
  rw [hfire3, List.length_append, spawnFires_allLand_length, hrad2, targetFires_750,
    hlen2, hlen1]
  omega

end TuiMap
